import Mathlib

/-!
# Vector-index lifecycle and segment provenance

A shallow embedding of the vector-index helpers of the storage engine:

* `VectorIndex/MergeUtils.h`: `renameVectorIndexFiles`, `getAllOldSegementIds`,
  `getAllSegmentIds`, `removeRowIdsMaps`;
* `VectorIndex/Storages/VectorIndexTask.cpp`: `VectorIndexTask::prepare`;
* `VectorIndex/Common/VectorIndexCommon.h`: the file-name builders;
* `Interpreters/VectorIndexEventLog.cpp`: the event log;
* `Processors/QueryPlan/Optimizations/optimizeUseNormalProjection.cpp`: the choice of a
  normal projection.

Nullable pointers are `Option`. A call that may raise returns the exception next to its
result, and the calls a function makes to its collaborators (cache, file system) are recorded
in program order.
-/

/-! ## Exceptions -/

namespace DB

/-- What a call may raise: an engine exception (`DB::Exception`, which carries an error code
and a message) or an exception of any other kind (for instance a
`std::filesystem::filesystem_error`), of which only the description is kept. -/
inductive Thrown where
  | engine (code : Int) (message : String)
  | other (what : String)
  deriving DecidableEq, Repr

end DB

namespace VectorIndex

open DB (Thrown)

/-! ## Paths (`std::filesystem::path`, POSIX flavour) -/

/-- The path is absolute: it starts with the directory separator. -/
def isAbsolute (p : String) : Bool :=
  p.data.head? == some '/'

/-- The path has a non-empty last component: it is non-empty and does not end with the
separator. -/
def hasFilename (p : String) : Bool :=
  match p.data.getLast? with
  | none => false
  | some c => c != '/'

/-- The `operator/` of `fs::path`: an absolute right operand replaces the left one; otherwise
a separator is inserted when the left operand has a last component, and the right operand is
appended. -/
def pathAppend (p q : String) : String :=
  if isAbsolute q then q
  else if hasFilename p then p ++ "/" ++ q
  else p ++ q

/-! ## Data model -/

/-- Modelled from the spec: the volume handle obtained by `getVolumeFromPartStorage`, which is
declared outside the sources; the spec calls it an opaque handle. -/
structure Volume where
  id : Nat
  deriving DecidableEq, Repr

/-- Modelled from the spec: `DB::MergeTreePartInfo`, declared outside the sources. The spec
identifies a part by its name without the mutation suffix; the record keeps that name and the
mutation version apart. -/
structure MergeTreePartInfo where
  name_without_mutation : String
  mutation : Nat
  deriving DecidableEq, Repr

/-- The `info.getPartNameWithoutMutation()` of a parsed part name. -/
def MergeTreePartInfo.getPartNameWithoutMutation (info : MergeTreePartInfo) : String :=
  info.name_without_mutation

/-- One element of `getMergedSourceParts()`: the name of a merged source part and its
ordinal. -/
structure MergedPartNameAndId where
  name : String
  id : Int
  deriving DecidableEq, Repr

/-- One vector-index definition of the table metadata (`vec_indices`). -/
structure VectorIndexDescription where
  name : String
  column : String
  deriving DecidableEq, Repr

/-- The part's storage seen through `dynamic_cast<const DataPartStorageOnDiskBase *>`; the
record holds what `getVolumeFromPartStorage` reads from it. -/
structure DataPartStorageOnDiskBase where
  volume : Volume
  deriving DecidableEq, Repr

/-- What the helpers read from `data_part->storage` (the table). -/
structure MergeTreeData where
  /-- The `getContext()->getVectorIndexCachePath()`. -/
  vectorIndexCachePath : String
  /-- The `getRelativeDataPath()`. -/
  relativeDataPath : String
  /-- The `getInMemoryMetadataPtr()->vec_indices`. -/
  vec_indices : List VectorIndexDescription
  deriving DecidableEq, Repr

/-- What the helpers read from a data part (`IMergeTreeDataPart`). -/
structure DataPart where
  name : String
  info : MergeTreePartInfo
  storage : MergeTreeData
  /-- The result of the dynamic cast of `getDataPartStoragePtr()`; `none` is a null pointer. -/
  partStorage : Option DataPartStorageOnDiskBase
  /-- The `isStoredOnDisk()`. -/
  storedOnDisk : Bool
  /-- The `getDataPartStorage().getFullPath()`. -/
  fullPath : String
  /-- The (index name, column) pairs for which the part holds a built vector index. -/
  builtVectorIndices : List (String × String)
  /-- The row-id-map marker, `containRowIdsMaps()`. -/
  rowIdsMaps : Bool
  /-- The `getMergedSourceParts()`. -/
  mergedSourceParts : List MergedPartNameAndId
  deriving DecidableEq, Repr

/-- The `containVectorIndex(index_name, index_column)` of a part. -/
def DataPart.containVectorIndex (p : DataPart) (index_name index_column : String) : Bool :=
  p.builtVectorIndices.contains (index_name, index_column)

/-- The `containRowIdsMaps()` of a part. -/
def DataPart.containRowIdsMaps (p : DataPart) : Bool :=
  p.rowIdsMaps

/-- The `isStoredOnDisk()` of a part. -/
def DataPart.isStoredOnDisk (p : DataPart) : Bool :=
  p.storedOnDisk

/-- The `getMergedSourceParts()` of a part. -/
def DataPart.getMergedSourceParts (p : DataPart) : List MergedPartNameAndId :=
  p.mergedSourceParts

/-- Modelled from the spec: `SegmentId` (`VectorIndex/SegmentId.h` is outside the sources).
The fields are those of the spec's SegmentIdentity; `provenance = none` is the part's own
index, `some (source part name, source part ordinal)` an index inherited from a merged
source part. -/
structure SegmentId where
  volume : Volume
  data_part_path : String
  current_part_name : String
  vector_index_name : String
  column_name : String
  vector_index_cache_prefix : String
  provenance : Option (String × Int)
  deriving DecidableEq, Repr

/-- Modelled from the spec: the six-argument constructor of `SegmentId`, used for the index a
part built itself: no provenance. -/
def SegmentId.ofPart (volume : Volume) (data_part_path current_part_name vector_index_name
    column_name vector_index_cache_prefix : String) : SegmentId :=
  { volume := volume
    data_part_path := data_part_path
    current_part_name := current_part_name
    vector_index_name := vector_index_name
    column_name := column_name
    vector_index_cache_prefix := vector_index_cache_prefix
    provenance := none }

/-- Modelled from the spec: the eight-argument constructor of `SegmentId`, used for an index
inherited from a merged source part: the provenance is the source part's name and ordinal. -/
def SegmentId.ofOldPart (volume : Volume) (data_part_path current_part_name owner_part_name
    vector_index_name column_name vector_index_cache_prefix : String) (owner_part_id : Int) :
    SegmentId :=
  { volume := volume
    data_part_path := data_part_path
    current_part_name := current_part_name
    vector_index_name := vector_index_name
    column_name := column_name
    vector_index_cache_prefix := vector_index_cache_prefix
    provenance := some (owner_part_name, owner_part_id) }

/-! ## `getAllOldSegementIds` and `getAllSegmentIds`

The parser `MergeTreePartInfo::fromPartName` is declared outside the sources and is a
parameter of both functions. -/

/-- The `getAllOldSegementIds` of `MergeUtils.h`. -/
def getAllOldSegementIds (fromPartName : String → MergeTreePartInfo) (data_path : String)
    (data_part : Option DataPart) (index_name index_column : String) : List SegmentId :=
  match data_part with
  | none => []
  | some part =>
    match part.partStorage with
    | none => []
    | some part_storage =>
      let volume := part_storage.volume
      if part.containRowIdsMaps then
        part.getMergedSourceParts.map fun old_part =>
          let vector_index_cache_prefix :=
            pathAppend
              (pathAppend
                (pathAppend part.storage.vectorIndexCachePath part.storage.relativeDataPath)
                (fromPartName old_part.name).getPartNameWithoutMutation)
              ""
          SegmentId.ofOldPart volume data_path part.name old_part.name index_name index_column
            vector_index_cache_prefix old_part.id
      else []

/-- The `getAllSegmentIds` of `MergeUtils.h`. -/
def getAllSegmentIds (fromPartName : String → MergeTreePartInfo) (data_path : String)
    (data_part : Option DataPart) (index_name index_column : String) : List SegmentId :=
  match data_part with
  | none => []
  | some part =>
    match part.partStorage with
    | none => []
    | some part_storage =>
      let volume := part_storage.volume
      let segment_ids : List SegmentId :=
        if part.containVectorIndex index_name index_column then
          let vector_index_cache_prefix :=
            pathAppend
              (pathAppend
                (pathAppend part.storage.vectorIndexCachePath part.storage.relativeDataPath)
                part.info.getPartNameWithoutMutation)
              ""
          [SegmentId.ofPart volume data_path part.name index_name index_column
            vector_index_cache_prefix]
        else []
      if segment_ids.isEmpty && part.containRowIdsMaps then
        segment_ids ++ part.getMergedSourceParts.map fun old_part =>
          let vector_index_cache_prefix :=
            pathAppend
              (pathAppend
                (pathAppend part.storage.vectorIndexCachePath part.storage.relativeDataPath)
                (fromPartName old_part.name).getPartNameWithoutMutation)
              ""
          SegmentId.ofOldPart volume data_path part.name old_part.name index_name index_column
            vector_index_cache_prefix old_part.id
      else segment_ids

/-! ## `removeRowIdsMaps`

The function works on the index cache and on the part. Its collaborators
(`SegmentId::getCacheKey`, `VectorSegmentExecutor::removeFromCache`,
`IMergeTreeDataPart::removeAllRowIdsMaps`, `MergeTreePartInfo::fromPartName`) are declared
outside the sources and are parameters. A collaborator that changes state returns the new
state together with the exception it raised, if any. -/

/-- The collaborators of `removeRowIdsMaps`, over a type `Key` of cache keys and a type
`Cache` of cache states. -/
structure Collaborators (Key Cache : Type) where
  fromPartName : String → MergeTreePartInfo
  getCacheKey : SegmentId → Key
  removeFromCache : Key → Cache → Cache × Option Thrown
  removeAllRowIdsMaps : DataPart → DataPart × Option Thrown

/-- A call `removeRowIdsMaps` makes to a collaborator that changes state. -/
inductive Call (Key : Type) where
  | removeFromCache (key : Key)
  | removeAllRowIdsMaps
  deriving DecidableEq, Repr

/-- How an execution ends when it does not return: an access past the end of a vector
(undefined behaviour in the source), or an exception that leaves the function. -/
inductive Abort where
  | outOfRange
  | thrown (e : Thrown)
  deriving DecidableEq, Repr

/-- The outcome of one execution of `removeRowIdsMaps`: the cache and the part afterwards, the
calls made in program order (a call that raised is the last one), and how the execution was
cut short, if it was. -/
structure Run (Key Cache : Type) where
  cache : Cache
  part : Option DataPart
  calls : List (Call Key)
  abort : Option Abort

/-- The loop `for (auto & old_segment : old_segments) removeFromCache(old_segment.getCacheKey())`:
the cache afterwards, the calls made, and the exception that ended the loop, if any. -/
def removeOldSegmentsFromCache {Key Cache : Type} (ext : Collaborators Key Cache) :
    List SegmentId → Cache → Cache × List (Call Key) × Option Thrown
  | [], cache => (cache, [], none)
  | old_segment :: rest, cache =>
    match ext.removeFromCache (ext.getCacheKey old_segment) cache with
    | (cache1, some e) => (cache1, [Call.removeFromCache (ext.getCacheKey old_segment)], some e)
    | (cache1, none) =>
      match removeOldSegmentsFromCache ext rest cache1 with
      | (cache2, calls, thrown) =>
        (cache2, Call.removeFromCache (ext.getCacheKey old_segment) :: calls, thrown)

/-- The `removeRowIdsMaps` of `MergeUtils.h`. -/
def removeRowIdsMaps {Key Cache : Type} (ext : Collaborators Key Cache) (cache : Cache)
    (data_part : Option DataPart) : Run Key Cache :=
  match data_part with
  | none => { cache := cache, part := none, calls := [], abort := none }
  | some part =>
    if !part.isStoredOnDisk || !part.containRowIdsMaps then
      { cache := cache, part := some part, calls := [], abort := none }
    else
      -- `metadata_snapshot->vec_indices[0]`
      match part.storage.vec_indices with
      | [] => { cache := cache, part := some part, calls := [], abort := some Abort.outOfRange }
      | vec_index_desc :: _ =>
        let old_parts := part.getMergedSourceParts
        match part.partStorage with
        | none => { cache := cache, part := some part, calls := [], abort := none }
        | some part_storage =>
          let volume := part_storage.volume
          let old_segments : List SegmentId := old_parts.map fun old_part =>
            let vector_index_cache_prefix :=
              pathAppend
                (pathAppend
                  (pathAppend part.storage.vectorIndexCachePath part.storage.relativeDataPath)
                  (ext.fromPartName old_part.name).getPartNameWithoutMutation)
                ""
            SegmentId.ofOldPart volume part.fullPath part.name old_part.name
              vec_index_desc.name vec_index_desc.column vector_index_cache_prefix old_part.id
          match removeOldSegmentsFromCache ext old_segments cache with
          | (cache1, calls, some e) =>
            { cache := cache1, part := some part, calls := calls, abort := some (Abort.thrown e) }
          | (cache1, calls, none) =>
            match ext.removeAllRowIdsMaps part with
            | (part1, some e) =>
              { cache := cache1, part := some part1
                calls := calls ++ [Call.removeAllRowIdsMaps], abort := some (Abort.thrown e) }
            | (part1, none) =>
              { cache := cache1, part := some part1
                calls := calls ++ [Call.removeAllRowIdsMaps], abort := none }

/-! ## `renameVectorIndexFiles` -/

/-- The `VECTOR_INDEX_FILE_SUFFIX` of `VectorIndexCommon.h`. -/
def VECTOR_INDEX_FILE_SUFFIX : String := ".vidx3"

/-- The `filename()` of `fs::path`: what follows the last separator. -/
def filename (p : String) : String :=
  String.mk (p.data.reverse.takeWhile (fun c => c != '/')).reverse

/-- The `extension()` of `fs::path`: empty for the special names `.` and `..` and for a file
name whose only period, if any, is its first character; otherwise what starts at the last
period of the file name. -/
def extension (p : String) : String :=
  let f := (filename p).data
  if f = ['.'] ∨ f = ['.', '.'] then ""
  else
    let tail := (f.reverse.takeWhile (fun c => c != '.')).reverse
    if f.all (fun c => c != '.') then ""
    else if f.length = tail.length + 1 then ""
    else String.mk ('.' :: tail)

/-- Modelled from the spec: `DB::fileName`, declared outside the sources; the spec's
`original_file_name` of a directory entry, the last component of its path. -/
def fileName (path : String) : String :=
  filename path

/-- An entry `fs::recursive_directory_iterator` yields: its path (`p.path()`), and whether it
is a directory, as the iterator holds it for the entry. -/
structure DirectoryEntry where
  path : String
  is_directory : Bool
  deriving DecidableEq, Repr

/-- What a file system holds under a path: a file with its content, or a directory. -/
inductive Node where
  | file (content : String)
  | directory
  deriving DecidableEq, Repr

/-- The path `q` lies below the path `a`: it is `a`, a separator, and what follows. -/
def isBelow (a q : String) : Bool :=
  (a.data ++ ['/']).isPrefixOf q.data

/-- The file system as `renameVectorIndexFiles` uses it, over a type `Fs` of file-system
states.

* `entries` is the creation of `fs::recursive_directory_iterator(old_path)`: it raises when the
  directory cannot be opened, and otherwise gives the entries below the directory in the order
  of the iteration, a directory before what it contains. Whether an iterator sees what is added
  to the tree after its creation is unspecified; the entries are those at the creation.
* `openDirectory` is what the increment of the iterator does after a directory entry: it opens
  that directory, in the state the file system has by then, to descend into it, and raises
  when the directory cannot be opened (it is gone once the loop has renamed it).
* `rename` is `fs::rename`: the new state and the exception it raised, if any.
* `lookup` is what a state holds under a path. -/
structure FileSystem (Fs : Type) where
  entries : Fs → String → Except Thrown (List DirectoryEntry)
  openDirectory : Fs → String → Option Thrown
  rename : String → String → Fs → Fs × Option Thrown
  lookup : Fs → String → Option Node

/-- The outcome of one execution of `renameVectorIndexFiles`: the file system afterwards, the
`fs::rename` calls made in program order as (old path, new path) pairs (a call that raised is
the last one), and the exception that left the function, if any. -/
structure RenameRun (Fs : Type) where
  fs : Fs
  renames : List (String × String)
  thrown : Option Thrown

/-- The body of the loop of `renameVectorIndexFiles` for one entry: an entry with the
index-file extension is renamed, whether it is a file or a directory. -/
def renameEntry {Fs : Type} (sys : FileSystem Fs) (part_id part_name new_path : String)
    (p : DirectoryEntry) (fs : Fs) : RenameRun Fs :=
  if extension p.path = VECTOR_INDEX_FILE_SUFFIX then
    let new_file_path :=
      new_path ++ "merged-" ++ part_id ++ "-" ++ part_name ++ "-" ++ fileName p.path
    match sys.rename p.path new_file_path fs with
    | (fs1, thrown) => { fs := fs1, renames := [(p.path, new_file_path)], thrown := thrown }
  else { fs := fs, renames := [], thrown := none }

/-- The increment of the iterator after the body has run for an entry: past a directory entry
the iterator opens the directory, in the state the body left. -/
def incrementPast {Fs : Type} (sys : FileSystem Fs) (p : DirectoryEntry) (fs : Fs) :
    Option Thrown :=
  if p.is_directory then sys.openDirectory fs p.path else none

/-- The loop of `renameVectorIndexFiles`: for each entry the body, then the increment of the
iterator; an exception of either ends the loop. -/
def renameLoop {Fs : Type} (sys : FileSystem Fs) (part_id part_name new_path : String) :
    List DirectoryEntry → Fs → RenameRun Fs
  | [], fs => { fs := fs, renames := [], thrown := none }
  | p :: rest, fs =>
    let body := renameEntry sys part_id part_name new_path p fs
    match body.thrown with
    | some e => { fs := body.fs, renames := body.renames, thrown := some e }
    | none =>
      match incrementPast sys p body.fs with
      | some e => { fs := body.fs, renames := body.renames, thrown := some e }
      | none =>
        let run := renameLoop sys part_id part_name new_path rest body.fs
        { fs := run.fs, renames := body.renames ++ run.renames, thrown := run.thrown }

/-- The `renameVectorIndexFiles` of `MergeUtils.h`. -/
def renameVectorIndexFiles {Fs : Type} (sys : FileSystem Fs)
    (part_id part_name old_path new_path : String) (fs : Fs) : RenameRun Fs :=
  match sys.entries fs old_path with
  | Except.error e => { fs := fs, renames := [], thrown := some e }
  | Except.ok entries => renameLoop sys part_id part_name new_path entries fs

end VectorIndex

/-! ## `VectorIndexTask::prepare` -/

namespace DB

/-- The two error codes `prepare` compares with; their values (`extern const int`) are defined
outside the sources. -/
structure ErrorCodes where
  NOT_FOUND_EXPECTED_DATA_PART : Int
  VECTOR_INDEX_ALREADY_EXISTS : Int
  deriving DecidableEq, Repr

/-- The status kinds `prepare` returns. -/
inductive BuildVectorIndexStatus.Status where
  | SUCCESS
  | NO_DATA_PART
  | BUILD_SKIPPED
  | BUILD_FAIL
  deriving DecidableEq, Repr

/-- Modelled from the spec: `BuildVectorIndexStatus`, declared outside the sources: a status
kind with an error code and a message, which are `0` and empty when not given. -/
structure BuildVectorIndexStatus where
  status : BuildVectorIndexStatus.Status
  err_code : Int := 0
  err_msg : String := ""
  deriving DecidableEq, Repr

/-- The `vector_index_entry` of a task. -/
structure VectorIndexEntry where
  part_name : String
  vector_index_name : String
  deriving DecidableEq, Repr

/-- A `VectorIndexTask`, over the types of metadata snapshots and of build contexts. -/
structure VectorIndexTask (Metadata Ctx : Type) where
  metadata_snapshot : Metadata
  vector_index_entry : VectorIndexEntry
  slow_mode : Bool
  ctx : Option Ctx

/-- One `LOG_ERROR` line of `prepare`: the part name, the error code and the message. -/
structure PrepareLogLine where
  part_name : String
  code : Int
  message : String
  deriving DecidableEq, Repr

/-- The outcome of `prepare`: the task afterwards, the lines logged, and either the status
returned or the exception that escapes to the caller. -/
structure PrepareRun (Metadata Ctx : Type) where
  task : VectorIndexTask Metadata Ctx
  log : List PrepareLogLine
  result : Except Thrown BuildVectorIndexStatus

/-- The `VectorIndexTask::prepare`. The builder's `prepareBuildIndexContext` is declared
outside the sources and is a parameter: it returns a context or raises. The handler is
`catch (Exception & e)`: it handles engine exceptions, and an exception of another kind is not
handled. -/
def VectorIndexTask.prepare {Metadata Ctx : Type} (codes : ErrorCodes)
    (prepareBuildIndexContext : Metadata → String → String → Bool → Except Thrown Ctx)
    (task : VectorIndexTask Metadata Ctx) : PrepareRun Metadata Ctx :=
  match prepareBuildIndexContext task.metadata_snapshot task.vector_index_entry.part_name
      task.vector_index_entry.vector_index_name task.slow_mode with
  | Except.ok ctx =>
    { task := { task with ctx := some ctx }
      log := []
      result := Except.ok { status := BuildVectorIndexStatus.Status.SUCCESS } }
  | Except.error (Thrown.engine code message) =>
    let log := [{ part_name := task.vector_index_entry.part_name, code := code
                  message := message : PrepareLogLine }]
    if code = codes.NOT_FOUND_EXPECTED_DATA_PART then
      { task := task, log := log
        result := Except.ok { status := BuildVectorIndexStatus.Status.NO_DATA_PART
                              err_code := code, err_msg := message } }
    else if code = codes.VECTOR_INDEX_ALREADY_EXISTS then
      { task := task, log := log
        result := Except.ok { status := BuildVectorIndexStatus.Status.BUILD_SKIPPED } }
    else
      { task := task, log := log
        result := Except.ok { status := BuildVectorIndexStatus.Status.BUILD_FAIL
                              err_code := code, err_msg := message } }
  | Except.error (Thrown.other what) =>
    { task := task, log := [], result := Except.error (Thrown.other what) }

end DB

/-! ## Auxiliary definitions for the statements -/

namespace VectorIndex

open DB (Thrown)

/-- The keys of the cache removals among the calls of an execution, in program order. -/
def removalKeys {Key : Type} : List (Call Key) → List Key
  | [] => []
  | Call.removeFromCache key :: calls => key :: removalKeys calls
  | Call.removeAllRowIdsMaps :: calls => removalKeys calls

/-- A part on which `removeRowIdsMaps` has nothing to do: it is null, or it fails the entry
guard, or it passes the guard with an index definition to read and a storage that is not of
the on-disk kind. -/
def nothingToRemove : Option DataPart → Bool
  | none => true
  | some part =>
    !part.isStoredOnDisk || !part.containRowIdsMaps ||
      (!part.storage.vec_indices.isEmpty && part.partStorage.isNone)

/-! ## Example data: parts `A` and `B` merged into `C` -/

/-- The first `fields` underscore-separated fields of a name. -/
def takeFields : List Char → Nat → List Char
  | [], _ => []
  | c :: cs, fields =>
    if c = '_' then
      if fields ≤ 1 then [] else c :: takeFields cs (fields - 1)
    else c :: takeFields cs fields

/-- An example parser of part names `partition_min_max_level[_mutation]`: the name without
the mutation suffix is the first four fields; the mutation version is not read. -/
def exampleFromPartName (name : String) : MergeTreePartInfo :=
  { name_without_mutation := String.mk (takeFields name.data 4), mutation := 0 }

/-- An example table with one vector index `idx` on column `vec`. -/
def exampleTable : MergeTreeData :=
  { vectorIndexCachePath := "/cache/vector_index"
    relativeDataPath := "store/t/"
    vec_indices := [{ name := "idx", column := "vec" }] }

/-- An example on-disk storage. -/
def exampleStorage : DataPartStorageOnDiskBase :=
  { volume := { id := 1 } }

/-- The part `C = all_1_2_1`, merged from `A = all_1_1_0` (ordinal 0) and `B = all_2_2_0_5`
(ordinal 1); it carries row-id maps and has not built its own index. -/
def examplePartC : DataPart :=
  { name := "all_1_2_1"
    info := { name_without_mutation := "all_1_2_1", mutation := 0 }
    storage := exampleTable
    partStorage := some exampleStorage
    storedOnDisk := true
    fullPath := "/data/store/t/all_1_2_1/"
    builtVectorIndices := []
    rowIdsMaps := true
    mergedSourceParts := [{ name := "all_1_1_0", id := 0 }, { name := "all_2_2_0_5", id := 1 }] }

/-- The part `C` once it has built its own index `idx` on `vec`, the row-id maps still in
place. -/
def examplePartCBuilt : DataPart :=
  { examplePartC with builtVectorIndices := [("idx", "vec")] }

/-- The part `C` after a mutation: the same name without mutation, mutation version 7. -/
def examplePartCMutated : DataPart :=
  { examplePartCBuilt with
    name := "all_1_2_1_7"
    info := { name_without_mutation := "all_1_2_1", mutation := 7 }
    fullPath := "/data/store/t/all_1_2_1_7/" }

/-- Example collaborators: a cache key is the segment id itself, the cache is the list of the
keys it holds, a removal drops the key, and `removeAllRowIdsMaps` clears the marker; no call
raises. -/
def exampleCollaborators : Collaborators SegmentId (List SegmentId) :=
  { fromPartName := exampleFromPartName
    getCacheKey := fun seg => seg
    removeFromCache := fun key cache => (cache.filter (fun k => k != key), none)
    removeAllRowIdsMaps := fun part => ({ part with rowIdsMaps := false }, none) }

/-- The path without the separator it ends with, if it ends with one. -/
def dropTrailingSeparator (p : String) : String :=
  match p.data.reverse with
  | '/' :: r => String.mk r.reverse
  | _ => p

/-- The example rename on the list of what the paths hold: what is under `old_path` and below
it goes under `new_path` and below it, and what was there before is gone. -/
def moveEntries (old_path new_path : String) : List (String × Node) → List (String × Node)
  | [] => []
  | (q, node) :: rest =>
    if q = old_path then (new_path, node) :: moveEntries old_path new_path rest
    else if isBelow old_path q then
      (String.mk (new_path.data ++ q.data.drop old_path.data.length), node) ::
        moveEntries old_path new_path rest
    else if q = new_path || isBelow new_path q then moveEntries old_path new_path rest
    else (q, node) :: moveEntries old_path new_path rest

/-- An example file system, with the paths whose rename is refused. A state lists what the
paths hold, a directory before what it contains. The iterator of a directory raises when there
is no such directory and yields what lies below it; the increment past a directory entry raises
when the directory is no longer there; a rename of a locked path or of a path that does not
exist raises and changes nothing, any other rename moves the path and what lies below it. -/
def exampleFileSystem (locked : List String) : FileSystem (List (String × Node)) :=
  { entries := fun fs dir =>
      match fs.lookup (dropTrailingSeparator dir) with
      | some Node.directory =>
        Except.ok ((fs.filter (fun e => isBelow (dropTrailingSeparator dir) e.1)).map
          (fun e => { path := e.1, is_directory := e.2 == Node.directory }))
      | _ => Except.error (Thrown.other "filesystem error: cannot open directory")
    openDirectory := fun fs dir =>
      match fs.lookup dir with
      | some Node.directory => none
      | _ => some (Thrown.other "filesystem error: cannot increment directory iterator")
    rename := fun old_path new_path fs =>
      if locked.contains old_path then
        (fs, some (Thrown.other "filesystem error: cannot rename"))
      else
        match fs.lookup old_path with
        | none => (fs, some (Thrown.other "filesystem error: cannot rename"))
        | some _ => (moveEntries old_path new_path fs, none)
    lookup := fun fs q => fs.lookup q }

/-- A directory of the source part `A` with three index files, and the empty directory of the
part `C`. -/
def exampleThreeIndexFiles : List (String × Node) :=
  [("/data", Node.directory), ("/data/A", Node.directory),
    ("/data/A/a.vidx3", Node.file "first"),
    ("/data/A/b.vidx3", Node.file "second"),
    ("/data/A/c.vidx3", Node.file "third"),
    ("/data/C", Node.directory)]

/-- The directory of the source part `A`, with two index files and one legacy index file, and
the empty directory of the part `C`. -/
def exampleOldDirectory : List (String × Node) :=
  [("/data", Node.directory), ("/data/A", Node.directory),
    ("/data/A/idx-hnsw.vidx3", Node.file "graph"),
    ("/data/A/idx-vector_index_description.vidx3", Node.file "description"),
    ("/data/A/idx-old.vidx2", Node.file "legacy"),
    ("/data/C", Node.directory)]

end VectorIndex

namespace DB

/-- Example values of the two error codes. -/
def exampleCodes : ErrorCodes :=
  { NOT_FOUND_EXPECTED_DATA_PART := 229, VECTOR_INDEX_ALREADY_EXISTS := 1001 }

/-- An example task for index `idx` of part `all_1_2_1`. -/
def exampleTask : VectorIndexTask Unit Unit :=
  { metadata_snapshot := ()
    vector_index_entry := { part_name := "all_1_2_1", vector_index_name := "idx" }
    slow_mode := false
    ctx := none }

/-- An example builder whose `prepareBuildIndexContext` raises an exception that is not an
engine exception. -/
def exampleBadAllocBuilder : Unit → String → String → Bool → Except Thrown Unit :=
  fun _ _ _ _ => Except.error (Thrown.other "std::bad_alloc")

/-- An example builder whose `prepareBuildIndexContext` raises the engine exception with
code 241. -/
def exampleEngineErrorBuilder : Unit → String → String → Bool → Except Thrown Unit :=
  fun _ _ _ _ => Except.error (Thrown.engine 241 "Memory limit exceeded")

end DB

/-! ## File-name builders of `VectorIndexCommon.h` -/

namespace VectorIndex

/-- The `VECTOR_INDEX_DESCRIPTION` of `VectorIndexCommon.h`. -/
def VECTOR_INDEX_DESCRIPTION : String := "vector_index_description"

/-- The `VECTOR_INDEX_CHECKSUMS` of `VectorIndexCommon.h`. -/
def VECTOR_INDEX_CHECKSUMS : String := "vector_index_checksums"

/-- The `getVectorIndexChecksumsFileName` of `VectorIndexCommon.h`. -/
def getVectorIndexChecksumsFileName (index_name : String) : String :=
  index_name ++ "-" ++ VECTOR_INDEX_CHECKSUMS ++ VECTOR_INDEX_FILE_SUFFIX

/-- The `getVectorIndexDescriptionFileName` of `VectorIndexCommon.h`. -/
def getVectorIndexDescriptionFileName (index_name : String) : String :=
  index_name ++ "-" ++ VECTOR_INDEX_DESCRIPTION ++ VECTOR_INDEX_FILE_SUFFIX

/-- The `getDecoupledVectorIndexDescriptionFileName` of `VectorIndexCommon.h`;
`std::to_string` of an `int` is its decimal text. -/
def getDecoupledVectorIndexDescriptionFileName (index_name : String) (old_part_id : Int)
    (old_part_name : String) : String :=
  "merged-" ++ toString old_part_id ++ "-" ++ old_part_name ++ "-" ++
    getVectorIndexDescriptionFileName index_name

end VectorIndex

/-! ## The event log: `VectorIndexEventLog.cpp` -/

namespace DB

/-- The enumerators of `VectorIndexEventLogElement::Type` that `getNamesAndTypes` names. -/
inductive EventType where
  | DEFINITION_CREATED
  | DEFINITION_DROPPED
  | DEFINITION_ERROR
  | BUILD_START
  | BUILD_SUCCEED
  | BUILD_ERROR
  | BUILD_CANCELD
  | LOAD_START
  | LOAD_SUCCEED
  | LOAD_CANCELD
  | LOAD_FAILED
  | LOAD_ERROR
  | UNLOAD
  | WILLUNLOAD
  | CLEARED
  deriving DecidableEq, Repr

/-- The column types `getNamesAndTypes` makes; an enum type holds its values, each a name with
the enumerator it stands for, and a `DateTime64` its scale. -/
inductive DataType where
  | String
  | Enum8 (values : List (String × EventType))
  | Date
  | DateTime
  | DateTime64 (scale : Nat)
  | UInt16
  deriving DecidableEq, Repr

/-- The `DataTypeEnum8::Values` of the `event_type` column, as `getNamesAndTypes` writes
them. -/
def eventTypeValues : List (String × EventType) :=
  [ ("DefinitionCreated", EventType.DEFINITION_CREATED),
    ("DefinitionDroped", EventType.DEFINITION_DROPPED),
    ("DefinitionError", EventType.DEFINITION_ERROR),
    ("BuildStart", EventType.BUILD_START),
    ("BuildSucceed", EventType.BUILD_SUCCEED),
    ("BuildError", EventType.BUILD_ERROR),
    ("BuildCanceld", EventType.BUILD_CANCELD),
    ("LoadStart", EventType.LOAD_START),
    ("LoadSucceed", EventType.LOAD_SUCCEED),
    ("LoadCanceled", EventType.LOAD_CANCELD),
    ("LoadFailed", EventType.LOAD_FAILED),
    ("LoadError", EventType.LOAD_ERROR),
    ("Unload", EventType.UNLOAD),
    ("WillUnload", EventType.WILLUNLOAD),
    ("Cleared", EventType.CLEARED) ]

/-- The `VectorIndexEventLogElement::getNamesAndTypes`. -/
def getNamesAndTypes : List (String × DataType) :=
  let event_type_datatype := DataType.Enum8 eventTypeValues
  [ ("database", DataType.String),
    ("table", DataType.String),
    ("part_name", DataType.String),
    ("partition_id", DataType.String),
    ("event_type", event_type_datatype),
    ("event_date", DataType.Date),
    ("event_time", DataType.DateTime),
    ("event_time_microseconds", DataType.DateTime64 6),
    ("error", DataType.UInt16),
    ("exception", DataType.String) ]

/-- Modelled from the spec: `VectorIndexEventLogElement`, declared outside the sources; the
fields are those of the spec's EventLogRecord, under the names the sources use. The two times
and the error code are unsigned numbers. -/
structure VectorIndexEventLogElement where
  database_name : String
  table_name : String
  part_name : String
  partition_id : String
  event_type : EventType
  event_time : Nat
  event_time_microseconds : Nat
  error_code : Nat
  exception : String
  deriving DecidableEq, Repr

/-- A value inserted into a column: text, a number, or an event type. -/
inductive Field where
  | text (s : String)
  | number (n : Nat)
  | event (t : EventType)
  deriving DecidableEq, Repr

/-- The `columns[i]->insert(value)`: the value is put at the end of column `i`; `none` when
there is no column `i`. -/
def insertInto (columns : List (List Field)) (i : Nat) (value : Field) :
    Option (List (List Field)) :=
  match columns[i]? with
  | none => none
  | some column => some (columns.set i (column ++ [value]))

/-- The `VectorIndexEventLogElement::appendToBlock`. The day number of a time,
`DateLUT::instance().toDayNum(t).toUnderType()`, depends on the time zone and is a
parameter. -/
def appendToBlock (toDayNum : Nat → Nat) (elem : VectorIndexEventLogElement)
    (columns : List (List Field)) : Option (List (List Field)) := do
  let i := 0
  let columns ← insertInto columns i (Field.text elem.database_name)
  let i := i + 1
  let columns ← insertInto columns i (Field.text elem.table_name)
  let i := i + 1
  let columns ← insertInto columns i (Field.text elem.part_name)
  let i := i + 1
  let columns ← insertInto columns i (Field.text elem.partition_id)
  let i := i + 1
  let columns ← insertInto columns i (Field.event elem.event_type)
  let i := i + 1
  let columns ← insertInto columns i (Field.number (toDayNum elem.event_time))
  let i := i + 1
  let columns ← insertInto columns i (Field.number elem.event_time)
  let i := i + 1
  let columns ← insertInto columns i (Field.number elem.event_time_microseconds)
  let i := i + 1
  let columns ← insertInto columns i (Field.number elem.error_code)
  let i := i + 1
  insertInto columns i (Field.text elem.exception)

/-- Modelled from the spec: a reading of the wall clock (`std::chrono::system_clock::now()`),
the instant as the number of nanoseconds since the epoch. -/
structure TimePoint where
  nanoseconds : Nat
  deriving DecidableEq, Repr

/-- Modelled from the spec: `timeInSeconds`, declared outside the sources: the
second-granularity timestamp of an instant, the whole seconds since the epoch. -/
def timeInSeconds (timepoint : TimePoint) : Nat :=
  timepoint.nanoseconds / 1000000000

/-- Modelled from the spec: `timeInMicroseconds`, declared outside the sources: the
microsecond-granularity timestamp of an instant, the whole microseconds since the epoch. -/
def timeInMicroseconds (timepoint : TimePoint) : Nat :=
  timepoint.nanoseconds / 1000

/-- The wall clock: what the successive readings return, and how many have been taken. -/
structure Clock where
  reading : Nat → TimePoint
  reads : Nat

/-- One reading of the clock: `std::chrono::system_clock::now()`. -/
def Clock.now (clock : Clock) : TimePoint × Clock :=
  (clock.reading clock.reads, { clock with reads := clock.reads + 1 })

/-- Modelled from the spec: `ExecutionStatus`, declared outside the sources: an integer code
and a message. -/
structure ExecutionStatus where
  code : Int
  message : String
  deriving DecidableEq, Repr

/-- The `static_cast<UInt16>` of an `int`: the value modulo `2^16`. -/
def toUInt16 (code : Int) : Nat :=
  (code % 65536).toNat

/-- The `UUID` of a table. -/
structure UUID where
  value : String
  deriving DecidableEq, Repr

/-- What `getDbAndTableNameFromUUID` reads from a `StorageID`: the two names, and whether the
id converts to `true` (`operator bool`, declared outside the sources). -/
structure StorageID where
  database_name : String
  table_name : String
  nonEmpty : Bool
  deriving DecidableEq, Repr

/-- What `addEventLog` reads from a data part; the part is dereferenced without a check, so
the record stands for the object the pointer refers to. -/
structure EventLogDataPart where
  /-- The `storage.getStorageID()`. -/
  storage_id : StorageID
  name : String
  /-- The `info.partition_id`. -/
  partition_id : String
  deriving DecidableEq, Repr

/-- The collaborators of the event log, over a type `Sink` of states of the log: `add` is
`log_entry->add(elem)` and returns the new state and the exception it raised, if any;
`logger` is `log_entry->log`; `parseUUID` raises on text that is no UUID; `tryGetByUUID` is the
storage `DatabaseCatalog::instance().tryGetByUUID(uuid).second`, seen through its storage id,
`none` for a null pointer. -/
structure EventLogCollaborators (Sink : Type) where
  add : VectorIndexEventLogElement → Sink → Sink × Option Thrown
  logger : Sink → String
  parseUUID : String → Except Thrown UUID
  tryGetByUUID : UUID → Option StorageID

/-- The context as `addEventLog` uses it (the object `current_context` refers to): its
`getVectorIndexEventLog()`, `none` for a null pointer. -/
structure Context (Sink : Type) where
  vector_index_event_log : Option Sink

/-- A look-up `addEventLog` makes to find the database and the table. -/
inductive Resolution where
  | getStorageID
  | parseUUID (table_uuid : String)
  | getDbAndTableNameFromUUID (table_uuid : UUID)
  deriving DecidableEq, Repr

/-- One line of `tryLogCurrentException`: the logger it writes to, the function that caught,
and the exception caught. -/
structure TraceLine where
  logger : String
  function : String
  exception : Thrown
  deriving DecidableEq, Repr

/-- The outcome of one call of `addEventLog`: the log afterwards, the elements handed to
`add` in program order, the look-ups made, the lines traced, the clock afterwards, and the
exception that reaches the caller, if any. -/
structure EventLogRun (Sink : Type) where
  sink : Option Sink
  added : List VectorIndexEventLogElement
  resolved : List Resolution
  traces : List TraceLine
  clock : Clock
  thrown : Option Thrown

/-- The fallback logger name of the handlers, `Poco::Logger::get("VectorIndexEventLog")`. -/
def fallbackLogger : String := "VectorIndexEventLog"

/-- The `VectorIndexEventLog::getDbAndTableNameFromUUID`. -/
def getDbAndTableNameFromUUID {Sink : Type} (ext : EventLogCollaborators Sink)
    (table_uuid : UUID) : Option (String × String) :=
  match ext.tryGetByUUID table_uuid with
  | none => none
  | some table_id =>
    if table_id.nonEmpty then some (table_id.database_name, table_id.table_name)
    else none

/-- The `VectorIndexEventLog::addEventLog` with an explicit log (lines 79-104). -/
def addEventLog {Sink : Type} (ext : EventLogCollaborators Sink) (clock : Clock)
    (log_entry : Option Sink) (db_name table_name part_name partition_id : String)
    (event_type : EventType) (execution_status : ExecutionStatus) : EventLogRun Sink :=
  match log_entry with
  | none =>
    { sink := none, added := [], resolved := [], traces := [], clock := clock, thrown := none }
  | some sink =>
    match clock.now with
    | (time_now, clock1) =>
      let elem : VectorIndexEventLogElement :=
        { database_name := db_name
          table_name := table_name
          part_name := part_name
          partition_id := partition_id
          event_type := event_type
          event_time := timeInSeconds time_now
          event_time_microseconds := timeInMicroseconds time_now
          error_code := toUInt16 execution_status.code
          exception := execution_status.message }
      match ext.add elem sink with
      | (sink1, thrown) =>
        { sink := some sink1, added := [elem], resolved := [], traces := [], clock := clock1
          thrown := thrown }

/-- The handler `catch (...) { tryLogCurrentException(...) }` of the three overloads that take
a context: an exception of the guarded call is traced, to the logger of the log when there is
a log and to the fallback logger otherwise, and does not leave the function. -/
def catchAll {Sink : Type} (ext : EventLogCollaborators Sink) (log_entry : Option Sink)
    (function : String) (run : EventLogRun Sink) : EventLogRun Sink :=
  match run.thrown with
  | none => run
  | some e =>
    let logger := match log_entry with
      | some sink => ext.logger sink
      | none => fallbackLogger
    { run with
      traces := run.traces ++ [{ logger := logger, function := function, exception := e }]
      thrown := none }

/-- The `VectorIndexEventLog::addEventLog` with a context and the names of the database and
the table (lines 106-129). -/
def addEventLogByContext {Sink : Type} (ext : EventLogCollaborators Sink) (clock : Clock)
    (current_context : Context Sink) (db_name table_name part_name partition_id : String)
    (event_type : EventType) (execution_status : ExecutionStatus) : EventLogRun Sink :=
  let log_entry := current_context.vector_index_event_log
  catchAll ext log_entry "addEventLog(ContextPtr, db_name, table_name, ...)"
    (match log_entry with
    | some _ =>
      addEventLog ext clock log_entry db_name table_name part_name partition_id event_type
        execution_status
    | none =>
      { sink := none, added := [], resolved := [], traces := [], clock := clock
        thrown := none })

/-- The `VectorIndexEventLog::addEventLog` with a context and a data part (lines 131-154). -/
def addEventLogByDataPart {Sink : Type} (ext : EventLogCollaborators Sink) (clock : Clock)
    (current_context : Context Sink) (data_part : EventLogDataPart) (event_type : EventType)
    (execution_status : ExecutionStatus) : EventLogRun Sink :=
  let log_entry := current_context.vector_index_event_log
  catchAll ext log_entry "addEventLog(ContextPtr, data_part, ...)"
    (match log_entry with
    | some _ =>
      let run := addEventLog ext clock log_entry data_part.storage_id.database_name
        data_part.storage_id.table_name data_part.name data_part.partition_id event_type
        execution_status
      { run with resolved := Resolution.getStorageID :: Resolution.getStorageID :: run.resolved }
    | none =>
      { sink := none, added := [], resolved := [], traces := [], clock := clock
        thrown := none })

/-- The `VectorIndexEventLog::addEventLog` with a context and the UUID of the table as text
(lines 156-186). -/
def addEventLogByTableUUID {Sink : Type} (ext : EventLogCollaborators Sink) (clock : Clock)
    (current_context : Context Sink) (table_uuid part_name partition_id : String)
    (event_type : EventType) (execution_status : ExecutionStatus) : EventLogRun Sink :=
  let log_entry := current_context.vector_index_event_log
  catchAll ext log_entry "addEventLog(ContextPtr, table_uuid, ...)"
    (match log_entry with
    | some sink =>
      match ext.parseUUID table_uuid with
      | Except.error e =>
        { sink := some sink, added := [], resolved := [Resolution.parseUUID table_uuid]
          traces := [], clock := clock, thrown := some e }
      | Except.ok tb_uuid =>
        match getDbAndTableNameFromUUID ext tb_uuid with
        | some ret =>
          let run := addEventLog ext clock log_entry ret.1 ret.2 part_name partition_id
            event_type execution_status
          { run with
            resolved := Resolution.parseUUID table_uuid ::
              Resolution.getDbAndTableNameFromUUID tb_uuid :: run.resolved }
        | none =>
          { sink := some sink, added := []
            resolved := [Resolution.parseUUID table_uuid,
              Resolution.getDbAndTableNameFromUUID tb_uuid]
            traces := [], clock := clock, thrown := none }
    | none =>
      { sink := none, added := [], resolved := [], traces := [], clock := clock
        thrown := none })

end DB

/-! ## Choosing a normal projection: `optimizeUseNormalProjection.cpp` -/

namespace DB.QueryPlanOptimizations

/-- The `ProjectionDescription::Type`. -/
inductive ProjectionType where
  | Normal
  | Aggregate
  deriving DecidableEq, Repr

/-- What the optimization reads from a `ProjectionDescription`: its name, its type, and the
column names of its sample block. -/
structure ProjectionDescription where
  name : String
  type : ProjectionType
  sample_block : List String
  deriving DecidableEq, Repr

/-- What `analyzeProjectionCandidate`, declared outside the sources, leaves in a candidate:
whether the analysis succeeded (its return value), the marks to read, and whether parts are
left for ordinary reading (`merge_tree_ordinary_select_result_ptr != nullptr`). -/
structure CandidateAnalysis where
  analyzed : Bool
  sum_marks : Nat
  has_ordinary_parts : Bool
  deriving DecidableEq, Repr

/-- A `NormalProjectionCandidate`: the projection with what the analysis left in the
candidate. -/
structure NormalProjectionCandidate where
  projection : ProjectionDescription
  sum_marks : Nat
  has_ordinary_parts : Bool
  deriving DecidableEq, Repr

/-- The `hasAllRequiredColumns`. -/
def hasAllRequiredColumns (projection : ProjectionDescription) : List String → Bool
  | [] => true
  | col :: required_columns =>
    if !projection.sample_block.contains col then false
    else hasAllRequiredColumns projection required_columns

/-- The loop of `optimizeUseNormalProjections` over the normal projections (lines 136-163),
from the best candidate so far to the best candidate at the end. -/
def selectBestCandidate (analyzeProjectionCandidate : ProjectionDescription → CandidateAnalysis)
    (required_columns : List String) (ordinary_reading_marks : Nat) :
    List ProjectionDescription → Option NormalProjectionCandidate →
      Option NormalProjectionCandidate
  | [], best_candidate => best_candidate
  | projection :: rest, best_candidate =>
    if !hasAllRequiredColumns projection required_columns then
      selectBestCandidate analyzeProjectionCandidate required_columns ordinary_reading_marks
        rest best_candidate
    else
      let analysis := analyzeProjectionCandidate projection
      let candidate : NormalProjectionCandidate :=
        { projection := projection, sum_marks := analysis.sum_marks
          has_ordinary_parts := analysis.has_ordinary_parts }
      if !analysis.analyzed then
        selectBestCandidate analyzeProjectionCandidate required_columns ordinary_reading_marks
          rest best_candidate
      else if candidate.sum_marks ≥ ordinary_reading_marks then
        selectBestCandidate analyzeProjectionCandidate required_columns ordinary_reading_marks
          rest best_candidate
      else
        match best_candidate with
        | none =>
          selectBestCandidate analyzeProjectionCandidate required_columns
            ordinary_reading_marks rest (some candidate)
        | some best =>
          if candidate.sum_marks < best.sum_marks then
            selectBestCandidate analyzeProjectionCandidate required_columns
              ordinary_reading_marks rest (some candidate)
          else
            selectBestCandidate analyzeProjectionCandidate required_columns
              ordinary_reading_marks rest (some best)

/-- What the optimization reads from the `ReadFromMergeTree` step: whether a projection may
be used for it, the projections of the storage metadata, the required columns
(`getRealColumnNames()`), and the marks of ordinary reading
(`selectRangesToRead(parts)->marks()`). -/
structure ReadFromMergeTree where
  canUseProjectionForReadingStep : Bool
  projections : List ProjectionDescription
  required_columns : List String
  ordinary_reading_marks : Nat
  deriving DecidableEq, Repr

/-- The argument of a call of `reading->setAnalyzedResult`: the result of ordinary reading,
or the ordinary-parts result of the candidate chosen. -/
inductive AnalyzedResult where
  | ordinary_reading
  | ordinary_parts_of (candidate : NormalProjectionCandidate)
  deriving DecidableEq, Repr

/-- The outcome of `optimizeUseNormalProjections`: the value returned, the best candidate when
the loop was reached, and the argument of `setAnalyzedResult` when it was called. The nodes
added to the query plan for the chosen projection are not part of the model. -/
structure ProjectionChoice where
  result : Bool
  best_candidate : Option NormalProjectionCandidate
  analyzed_result : Option AnalyzedResult
  deriving DecidableEq, Repr

/-- The `optimizeUseNormalProjections`, up to the choice of the projection. The step of the
frame is `none` when it is no `ReadFromMergeTree`; `query_builds` is the value of
`query.build(*child)`. -/
def optimizeUseNormalProjections
    (analyzeProjectionCandidate : ProjectionDescription → CandidateAnalysis)
    (query_builds : Bool) (reading : Option ReadFromMergeTree) : ProjectionChoice :=
  match reading with
  | none => { result := false, best_candidate := none, analyzed_result := none }
  | some reading =>
    if !reading.canUseProjectionForReadingStep then
      { result := false, best_candidate := none, analyzed_result := none }
    else
      let normal_projections :=
        reading.projections.filter (fun projection => projection.type = ProjectionType.Normal)
      if normal_projections.isEmpty then
        { result := false, best_candidate := none, analyzed_result := none }
      else if !query_builds then
        { result := false, best_candidate := none, analyzed_result := none }
      else
        match selectBestCandidate analyzeProjectionCandidate reading.required_columns
            reading.ordinary_reading_marks normal_projections none with
        | none =>
          { result := false, best_candidate := none
            analyzed_result := some AnalyzedResult.ordinary_reading }
        | some best_candidate =>
          { result := true, best_candidate := some best_candidate
            analyzed_result :=
              if best_candidate.has_ordinary_parts then
                some (AnalyzedResult.ordinary_parts_of best_candidate)
              else none }

/-- A projection is eligible: it has all required columns, its analysis succeeds, and its
marks are strictly fewer than those of ordinary reading. -/
def eligible (analyzeProjectionCandidate : ProjectionDescription → CandidateAnalysis)
    (required_columns : List String) (ordinary_reading_marks : Nat)
    (projection : ProjectionDescription) : Bool :=
  hasAllRequiredColumns projection required_columns &&
    (analyzeProjectionCandidate projection).analyzed &&
    decide ((analyzeProjectionCandidate projection).sum_marks < ordinary_reading_marks)

/-- The candidate made of a projection and its analysis. -/
def candidateOf (analyzeProjectionCandidate : ProjectionDescription → CandidateAnalysis)
    (projection : ProjectionDescription) : NormalProjectionCandidate :=
  { projection := projection
    sum_marks := (analyzeProjectionCandidate projection).sum_marks
    has_ordinary_parts := (analyzeProjectionCandidate projection).has_ordinary_parts }

/-- The candidate `c` is the best of the list: it is the candidate of an eligible projection
of the list, every eligible projection before it has strictly more marks, and every eligible
projection after it has at least as many. -/
def IsBestOf (analyzeProjectionCandidate : ProjectionDescription → CandidateAnalysis)
    (required_columns : List String) (ordinary_reading_marks : Nat)
    (c : NormalProjectionCandidate) (projections : List ProjectionDescription) : Prop :=
  ∃ (before : List ProjectionDescription) (p : ProjectionDescription)
    (after : List ProjectionDescription),
    projections = before ++ p :: after ∧
    eligible analyzeProjectionCandidate required_columns ordinary_reading_marks p = true ∧
    c = candidateOf analyzeProjectionCandidate p ∧
    (∀ q ∈ before,
      eligible analyzeProjectionCandidate required_columns ordinary_reading_marks q = true →
      c.sum_marks < (analyzeProjectionCandidate q).sum_marks) ∧
    (∀ q ∈ after,
      eligible analyzeProjectionCandidate required_columns ordinary_reading_marks q = true →
      c.sum_marks ≤ (analyzeProjectionCandidate q).sum_marks)

end DB.QueryPlanOptimizations

/-! ## Example data for the event log and the projections -/

namespace DB

/-- Example collaborators of the event log: the log is the list of its records, `add` puts
the record at the end, the table `t-uuid` is `db.tbl`; no call raises. -/
def exampleEventLog : EventLogCollaborators (List VectorIndexEventLogElement) :=
  { add := fun elem records => (records ++ [elem], none)
    logger := fun _ => "VectorIndexEventLog (system.vector_index_event_log)"
    parseUUID := fun text => Except.ok { value := text }
    tryGetByUUID := fun uuid =>
      if uuid.value = "t-uuid" then
        some { database_name := "db", table_name := "tbl", nonEmpty := true }
      else none }

/-- Example collaborators of the event log whose `add` raises and leaves the log as it is. -/
def exampleFailingEventLog : EventLogCollaborators (List VectorIndexEventLogElement) :=
  { exampleEventLog with
    add := fun _ records => (records, some (Thrown.other "std::bad_alloc")) }

/-- An example clock whose readings are 1 700 000 000.123 456 789 s after the epoch, one
nanosecond apart. -/
def exampleClock : Clock :=
  { reading := fun n => { nanoseconds := 1700000000123456789 + n }, reads := 0 }

/-- An example part of the table `db.tbl`. -/
def exampleEventLogPart : EventLogDataPart :=
  { storage_id := { database_name := "db", table_name := "tbl", nonEmpty := true }
    name := "all_1_2_1"
    partition_id := "all" }

end DB

namespace DB.QueryPlanOptimizations

/-- Example projections: `p1` lacks a required column, `p2` and `p3` tie on 40 marks, `p4`
is no better than ordinary reading, `agg` is no normal projection. -/
def exampleProjections : List ProjectionDescription :=
  [ { name := "p1", type := ProjectionType.Normal, sample_block := ["a"] },
    { name := "agg", type := ProjectionType.Aggregate, sample_block := ["a", "b"] },
    { name := "p2", type := ProjectionType.Normal, sample_block := ["a", "b"] },
    { name := "p3", type := ProjectionType.Normal, sample_block := ["b", "a", "c"] },
    { name := "p4", type := ProjectionType.Normal, sample_block := ["a", "b"] } ]

/-- An example analysis: every analysis succeeds; `p4` needs 100 marks, every other
projection 40. -/
def exampleAnalysis (projection : ProjectionDescription) : CandidateAnalysis :=
  { analyzed := true
    sum_marks := if projection.name = "p4" then 100 else 40
    has_ordinary_parts := false }

/-- An example reading step over the example projections: columns `a` and `b` are required
and ordinary reading needs 100 marks. -/
def exampleReading : ReadFromMergeTree :=
  { canUseProjectionForReadingStep := true
    projections := exampleProjections
    required_columns := ["a", "b"]
    ordinary_reading_marks := 100 }

end DB.QueryPlanOptimizations

/-! ## Segment resolution: `getAllSegmentIds` and `getAllOldSegementIds` -/

namespace VectorIndex

open DB (Thrown)

/-- Claim C1: for a non-null part whose storage is of the on-disk kind, `getAllSegmentIds`
returns exactly one segment id, without provenance and for the part itself, when the part
contains the vector index; otherwise it returns the list `getAllOldSegementIds` returns for
the same arguments (one inherited entry per merged source part with row-id maps, the empty
list without). The result never holds both an own entry and an inherited one. -/
theorem getAllSegmentIds_own_else_inherited (fromPartName : String → MergeTreePartInfo)
    (data_path : String) (part : DataPart) (part_storage : DataPartStorageOnDiskBase)
    (index_name index_column : String) (hdisk : part.partStorage = some part_storage) :
    (part.containVectorIndex index_name index_column = true →
      ∃ own : SegmentId,
        getAllSegmentIds fromPartName data_path (some part) index_name index_column = [own] ∧
        own.provenance = none ∧ own.current_part_name = part.name ∧
        own.vector_index_name = index_name ∧ own.column_name = index_column) ∧
    (part.containVectorIndex index_name index_column = false →
      getAllSegmentIds fromPartName data_path (some part) index_name index_column =
        getAllOldSegementIds fromPartName data_path (some part) index_name index_column ∧
      (part.containRowIdsMaps = true →
        (getAllOldSegementIds fromPartName data_path (some part) index_name
          index_column).map (fun seg => seg.provenance) =
          part.getMergedSourceParts.map (fun old_part => some (old_part.name, old_part.id))) ∧
      (part.containRowIdsMaps = false →
        getAllOldSegementIds fromPartName data_path (some part) index_name index_column = [])) ∧
    ¬ ((∃ seg ∈ getAllSegmentIds fromPartName data_path (some part) index_name index_column,
          seg.provenance = none) ∧
       (∃ seg ∈ getAllSegmentIds fromPartName data_path (some part) index_name index_column,
          seg.provenance ≠ none)) := by
  refine ⟨?_, ?_, ?_⟩
  · intro h
    refine ⟨SegmentId.ofPart part_storage.volume data_path part.name index_name index_column
      (pathAppend (pathAppend (pathAppend part.storage.vectorIndexCachePath
        part.storage.relativeDataPath) part.info.getPartNameWithoutMutation) ""),
      ?_, rfl, rfl, rfl, rfl⟩
    simp [getAllSegmentIds, hdisk, h]
  · intro h
    refine ⟨?_, ?_, ?_⟩
    · simp [getAllSegmentIds, getAllOldSegementIds, hdisk, h]
    · intro hm
      simp [getAllOldSegementIds, hdisk, hm, SegmentId.ofOldPart, List.map_map, Function.comp_def]
    · intro hm
      simp [getAllOldSegementIds, hdisk, hm]
  · rintro ⟨⟨a, ha, hna⟩, ⟨b, hb, hnb⟩⟩
    cases h : part.containVectorIndex index_name index_column
    · simp [getAllSegmentIds, hdisk, h] at ha
      obtain ⟨_, x, _, rfl⟩ := ha
      simp [SegmentId.ofOldPart] at hna
    · simp [getAllSegmentIds, hdisk, h] at hb
      subst hb
      simp [SegmentId.ofPart] at hnb

/-- Witness of C1 on the part `C` merged from `A` and `B`: without an own index the
result is the inherited list. -/
theorem getAllSegmentIds_own_else_inherited_witness :
    examplePartC.partStorage = some exampleStorage ∧
    examplePartC.containVectorIndex "idx" "vec" = false ∧
    getAllSegmentIds exampleFromPartName "/data/store/t/all_1_2_1/" (some examplePartC)
        "idx" "vec" =
      getAllOldSegementIds exampleFromPartName "/data/store/t/all_1_2_1/" (some examplePartC)
        "idx" "vec" :=
  ⟨rfl, rfl, ((getAllSegmentIds_own_else_inherited exampleFromPartName
    "/data/store/t/all_1_2_1/" examplePartC exampleStorage "idx" "vec" rfl).2.1 rfl).1⟩

/-- Claim C4: for a non-null part with on-disk storage that carries row-id maps,
`getAllOldSegementIds` returns one segment id per merged source part, in the order of the
source parts, each with the part's name as owning part, the source part's name and ordinal as
provenance, and the index name and column passed in; for a part that carries no row-id maps it
returns the empty list. -/
theorem getAllOldSegementIds_one_per_source_part (fromPartName : String → MergeTreePartInfo)
    (data_path : String) (part : DataPart) (index_name index_column : String) :
    (∀ part_storage : DataPartStorageOnDiskBase, part.partStorage = some part_storage →
      part.containRowIdsMaps = true →
      (getAllOldSegementIds fromPartName data_path (some part) index_name index_column).length =
        part.getMergedSourceParts.length ∧
      (getAllOldSegementIds fromPartName data_path (some part) index_name index_column).map
          (fun seg => (seg.current_part_name, seg.provenance, seg.vector_index_name,
            seg.column_name)) =
        part.getMergedSourceParts.map
          (fun old_part => (part.name, some (old_part.name, old_part.id), index_name,
            index_column))) ∧
    (part.containRowIdsMaps = false →
      getAllOldSegementIds fromPartName data_path (some part) index_name index_column = []) := by
  refine ⟨?_, ?_⟩
  · intro part_storage hdisk hm
    simp [getAllOldSegementIds, hdisk, hm, SegmentId.ofOldPart, List.map_map, Function.comp_def]
  · intro hm
    cases hs : part.partStorage <;> simp [getAllOldSegementIds, hs, hm]

/-- Witness of C4: `A` (ordinal 0) and `B` (ordinal 1) merged into `C` give two entries,
with the provenance of `A` and of `B`. -/
theorem getAllOldSegementIds_one_per_source_part_witness :
    (getAllOldSegementIds exampleFromPartName "/data/store/t/all_1_2_1/" (some examplePartC)
        "idx" "vec").map
      (fun seg => (seg.current_part_name, seg.provenance, seg.vector_index_name,
        seg.column_name)) =
      [("all_1_2_1", some ("all_1_1_0", 0), "idx", "vec"),
       ("all_1_2_1", some ("all_2_2_0_5", 1), "idx", "vec")] :=
  ((getAllOldSegementIds_one_per_source_part exampleFromPartName "/data/store/t/all_1_2_1/"
    examplePartC "idx" "vec").1 exampleStorage rfl rfl).2

/-- Claim C10: the cache prefix of an inherited segment is the join of the cache root, the
table's relative data path, the name without mutation of the merged source part and the empty
path, in `getAllOldSegementIds` and in `getAllSegmentIds` alike; the prefix of the part's own
segment is the same join with the part's own name without mutation. Two parts of one table
with the same name without mutation therefore get the same own prefix. -/
theorem cache_prefix_built_from_name_without_mutation
    (fromPartName : String → MergeTreePartInfo) (data_path : String) (part : DataPart)
    (part_storage : DataPartStorageOnDiskBase) (index_name index_column : String)
    (hdisk : part.partStorage = some part_storage) :
    (part.containRowIdsMaps = true →
      (getAllOldSegementIds fromPartName data_path (some part) index_name index_column).map
          (fun seg => (seg.provenance, seg.vector_index_cache_prefix)) =
        part.getMergedSourceParts.map (fun old_part =>
          (some (old_part.name, old_part.id),
            pathAppend (pathAppend (pathAppend part.storage.vectorIndexCachePath
              part.storage.relativeDataPath)
              (fromPartName old_part.name).getPartNameWithoutMutation) ""))) ∧
    (part.containVectorIndex index_name index_column = false → part.containRowIdsMaps = true →
      (getAllSegmentIds fromPartName data_path (some part) index_name index_column).map
          (fun seg => (seg.provenance, seg.vector_index_cache_prefix)) =
        part.getMergedSourceParts.map (fun old_part =>
          (some (old_part.name, old_part.id),
            pathAppend (pathAppend (pathAppend part.storage.vectorIndexCachePath
              part.storage.relativeDataPath)
              (fromPartName old_part.name).getPartNameWithoutMutation) ""))) ∧
    (part.containVectorIndex index_name index_column = true →
      (getAllSegmentIds fromPartName data_path (some part) index_name index_column).map
          (fun seg => (seg.provenance, seg.vector_index_cache_prefix)) =
        [(none, pathAppend (pathAppend (pathAppend part.storage.vectorIndexCachePath
            part.storage.relativeDataPath) part.info.getPartNameWithoutMutation) "")]) ∧
    (∀ (other : DataPart) (other_storage : DataPartStorageOnDiskBase),
      other.partStorage = some other_storage → other.storage = part.storage →
      other.info.name_without_mutation = part.info.name_without_mutation →
      part.containVectorIndex index_name index_column = true →
      other.containVectorIndex index_name index_column = true →
      (getAllSegmentIds fromPartName data_path (some other) index_name index_column).map
          (fun seg => seg.vector_index_cache_prefix) =
        (getAllSegmentIds fromPartName data_path (some part) index_name index_column).map
          (fun seg => seg.vector_index_cache_prefix)) := by
  refine ⟨?_, ?_, ?_, ?_⟩
  · intro hm
    simp [getAllOldSegementIds, hdisk, hm, SegmentId.ofOldPart, List.map_map, Function.comp_def]
  · intro hv hm
    simp [getAllSegmentIds, hdisk, hm, hv, SegmentId.ofOldPart, List.map_map, Function.comp_def]
  · intro hv
    simp [getAllSegmentIds, hdisk, hv, SegmentId.ofPart]
  · intro other other_storage hod hst hinfo hv hov
    simp [getAllSegmentIds, hdisk, hod, hv, hov, SegmentId.ofPart, hst,
      MergeTreePartInfo.getPartNameWithoutMutation, hinfo]

/-- Witness of C10: the part `C` with its own index and the same part after a mutation
get the same prefix. -/
theorem cache_prefix_built_from_name_without_mutation_witness :
    examplePartCBuilt.partStorage = some exampleStorage ∧
    examplePartCMutated.name ≠ examplePartCBuilt.name ∧
    (getAllSegmentIds exampleFromPartName "/data/store/t/all_1_2_1/"
        (some examplePartCMutated) "idx" "vec").map (fun seg => seg.vector_index_cache_prefix) =
      (getAllSegmentIds exampleFromPartName "/data/store/t/all_1_2_1/"
        (some examplePartCBuilt) "idx" "vec").map (fun seg => seg.vector_index_cache_prefix) :=
  ⟨rfl, by decide,
    (cache_prefix_built_from_name_without_mutation exampleFromPartName
      "/data/store/t/all_1_2_1/" examplePartCBuilt exampleStorage "idx" "vec" rfl).2.2.2
      examplePartCMutated exampleStorage rfl rfl rfl rfl rfl⟩

end VectorIndex

/-! ## The build task: `prepare` -/

namespace DB

/-- Claim C2: `prepare` returns `SUCCESS` when `prepareBuildIndexContext` raises nothing;
when it raises an engine exception with code `c` and message `m`, the status is `NO_DATA_PART`
for `c = NOT_FOUND_EXPECTED_DATA_PART`, `BUILD_SKIPPED` for `c = VECTOR_INDEX_ALREADY_EXISTS`,
and for every other code `BUILD_FAIL` with exactly `c` and `m`. The two reserved codes are
distinct. -/
theorem prepare_status_of_outcome {Metadata Ctx : Type} (codes : ErrorCodes)
    (prepareBuildIndexContext : Metadata → String → String → Bool → Except Thrown Ctx)
    (task : VectorIndexTask Metadata Ctx)
    (hcodes : codes.NOT_FOUND_EXPECTED_DATA_PART ≠ codes.VECTOR_INDEX_ALREADY_EXISTS) :
    (∀ ctx : Ctx,
      prepareBuildIndexContext task.metadata_snapshot task.vector_index_entry.part_name
          task.vector_index_entry.vector_index_name task.slow_mode = Except.ok ctx →
      (VectorIndexTask.prepare codes prepareBuildIndexContext task).result =
        Except.ok { status := BuildVectorIndexStatus.Status.SUCCESS }) ∧
    (∀ (c : Int) (m : String),
      prepareBuildIndexContext task.metadata_snapshot task.vector_index_entry.part_name
          task.vector_index_entry.vector_index_name task.slow_mode =
        Except.error (Thrown.engine c m) →
      (c = codes.NOT_FOUND_EXPECTED_DATA_PART →
        ∃ st : BuildVectorIndexStatus,
          (VectorIndexTask.prepare codes prepareBuildIndexContext task).result = Except.ok st ∧
          st.status = BuildVectorIndexStatus.Status.NO_DATA_PART) ∧
      (c = codes.VECTOR_INDEX_ALREADY_EXISTS →
        ∃ st : BuildVectorIndexStatus,
          (VectorIndexTask.prepare codes prepareBuildIndexContext task).result = Except.ok st ∧
          st.status = BuildVectorIndexStatus.Status.BUILD_SKIPPED) ∧
      (c ≠ codes.NOT_FOUND_EXPECTED_DATA_PART → c ≠ codes.VECTOR_INDEX_ALREADY_EXISTS →
        (VectorIndexTask.prepare codes prepareBuildIndexContext task).result =
          Except.ok { status := BuildVectorIndexStatus.Status.BUILD_FAIL
                      err_code := c, err_msg := m })) := by
  refine ⟨?_, ?_⟩
  · intro ctx h
    simp [VectorIndexTask.prepare, h]
  · intro c m h
    refine ⟨?_, ?_, ?_⟩
    · intro hc
      refine ⟨{ status := BuildVectorIndexStatus.Status.NO_DATA_PART
                err_code := c, err_msg := m }, ?_, rfl⟩
      simp [VectorIndexTask.prepare, h, hc]
    · intro hc
      have hne : c ≠ codes.NOT_FOUND_EXPECTED_DATA_PART := by
        rw [hc]; exact fun h' => hcodes h'.symm
      refine ⟨{ status := BuildVectorIndexStatus.Status.BUILD_SKIPPED }, ?_, rfl⟩
      simp only [VectorIndexTask.prepare, h, if_neg hne, if_pos hc]
    · intro h1 h2
      simp [VectorIndexTask.prepare, h, h1, h2]

/-- Witness of C2: an engine exception with the unreserved code 241 gives `BUILD_FAIL` with
that code and its message. -/
theorem prepare_status_of_outcome_witness :
    exampleCodes.NOT_FOUND_EXPECTED_DATA_PART ≠ exampleCodes.VECTOR_INDEX_ALREADY_EXISTS ∧
    (VectorIndexTask.prepare exampleCodes exampleEngineErrorBuilder exampleTask).result =
      Except.ok { status := BuildVectorIndexStatus.Status.BUILD_FAIL
                  err_code := 241, err_msg := "Memory limit exceeded" } :=
  ⟨by decide,
    ((prepare_status_of_outcome exampleCodes exampleEngineErrorBuilder exampleTask
      (by decide)).2 241 "Memory limit exceeded" rfl).2.2 (by decide) (by decide)⟩

/-- Counterexample to C3: when `prepareBuildIndexContext` raises an exception that is not an
engine exception, `prepare` returns no status: the exception escapes to the caller. -/
theorem prepare_other_exception_escapes :
    (VectorIndexTask.prepare exampleCodes exampleBadAllocBuilder exampleTask).result =
      Except.error (Thrown.other "std::bad_alloc") :=
  rfl

/-- Claim C3, amended: when building the context raises nothing or raises an engine
exception, `prepare` returns a status and nothing escapes; an exception of any other kind is
not handled and escapes to the caller unchanged. -/
theorem prepare_returns_iff_not_other {Metadata Ctx : Type} (codes : ErrorCodes)
    (prepareBuildIndexContext : Metadata → String → String → Bool → Except Thrown Ctx)
    (task : VectorIndexTask Metadata Ctx) :
    (∀ ctx : Ctx,
      prepareBuildIndexContext task.metadata_snapshot task.vector_index_entry.part_name
          task.vector_index_entry.vector_index_name task.slow_mode = Except.ok ctx →
      ∃ st : BuildVectorIndexStatus,
        (VectorIndexTask.prepare codes prepareBuildIndexContext task).result = Except.ok st) ∧
    (∀ (c : Int) (m : String),
      prepareBuildIndexContext task.metadata_snapshot task.vector_index_entry.part_name
          task.vector_index_entry.vector_index_name task.slow_mode =
        Except.error (Thrown.engine c m) →
      ∃ st : BuildVectorIndexStatus,
        (VectorIndexTask.prepare codes prepareBuildIndexContext task).result = Except.ok st) ∧
    (∀ what : String,
      prepareBuildIndexContext task.metadata_snapshot task.vector_index_entry.part_name
          task.vector_index_entry.vector_index_name task.slow_mode =
        Except.error (Thrown.other what) →
      (VectorIndexTask.prepare codes prepareBuildIndexContext task).result =
        Except.error (Thrown.other what)) := by
  refine ⟨?_, ?_, ?_⟩
  · intro ctx h
    exact ⟨{ status := BuildVectorIndexStatus.Status.SUCCESS },
      by simp only [VectorIndexTask.prepare, h]⟩
  · intro c m h
    simp only [VectorIndexTask.prepare, h]
    split_ifs <;> exact ⟨_, rfl⟩
  · intro what h
    simp [VectorIndexTask.prepare, h]

/-- Witness of the amended C3: the engine exception of the example builder is turned into
a status. -/
theorem prepare_returns_iff_not_other_witness :
    ∃ st : BuildVectorIndexStatus,
      (VectorIndexTask.prepare exampleCodes exampleEngineErrorBuilder exampleTask).result =
        Except.ok st :=
  (prepare_returns_iff_not_other exampleCodes exampleEngineErrorBuilder exampleTask).2.1
    241 "Memory limit exceeded" rfl

end DB

/-! ## Purging inherited segments: `removeRowIdsMaps` -/

namespace VectorIndex

open DB (Thrown)

/-- The calls of the removal loop are a leading part of the removals of all segments, and
all of them when the loop raises nothing. -/
theorem removeOldSegmentsFromCache_calls {Key Cache : Type} (ext : Collaborators Key Cache) :
    ∀ (segs : List SegmentId) (cache : Cache),
      (removeOldSegmentsFromCache ext segs cache).2.1 <+:
          segs.map (fun seg => Call.removeFromCache (ext.getCacheKey seg)) ∧
      ((removeOldSegmentsFromCache ext segs cache).2.2 = none →
        (removeOldSegmentsFromCache ext segs cache).2.1 =
          segs.map (fun seg => Call.removeFromCache (ext.getCacheKey seg))) := by
  intro segs
  induction segs with
  | nil => intro cache; simp [removeOldSegmentsFromCache]
  | cons seg rest ih =>
    intro cache
    rcases h : ext.removeFromCache (ext.getCacheKey seg) cache with ⟨cache1, _ | e⟩
    · have := ih cache1
      simp only [removeOldSegmentsFromCache, h, List.map_cons]
      refine ⟨?_, ?_⟩
      · exact (List.prefix_cons_inj _).mpr this.1
      · intro hn
        rw [this.2 hn]
    · simp only [removeOldSegmentsFromCache, h, List.map_cons]
      refine ⟨?_, ?_⟩
      · exact (List.prefix_cons_inj _).mpr (List.nil_prefix)
      · intro hn; simp at hn

/-- The removal keys of a list of removals are the keys removed. -/
theorem removalKeys_map_removeFromCache {Key : Type} (keys : List Key) :
    removalKeys (keys.map Call.removeFromCache) = keys := by
  induction keys with
  | nil => rfl
  | cons k ks ih => simp [removalKeys, ih]

/-- The removal keys of two lists of calls in a row. -/
theorem removalKeys_append {Key : Type} (xs ys : List (Call Key)) :
    removalKeys (xs ++ ys) = removalKeys xs ++ removalKeys ys := by
  induction xs with
  | nil => rfl
  | cons x xs ih => cases x <;> simp [removalKeys, ih]

/-- A leading part of the calls has a leading part of the removal keys. -/
theorem removalKeys_prefix {Key : Type} {xs ys : List (Call Key)} (h : xs <+: ys) :
    removalKeys xs <+: removalKeys ys := by
  obtain ⟨t, rfl⟩ := h
  rw [removalKeys_append]
  exact List.prefix_append _ _

/-- A list that ends with its only occurrence of `x` splits at `x` in one way. -/
theorem split_at_last_call {α : Type} (x : α) :
    ∀ (l pre post : List α), x ∉ l → pre ++ x :: post = l ++ [x] → pre = l ∧ post = [] := by
  intro l
  induction l with
  | nil =>
    intro pre post _ h
    cases pre with
    | nil => simpa using h
    | cons p pre => simp at h
  | cons a l ih =>
    intro pre post hx h
    cases pre with
    | nil =>
      simp at h
      exact absurd h.1 (fun h' => hx (by simp [h']))
    | cons p pre =>
      simp only [List.cons_append, List.cons.injEq] at h
      obtain ⟨rfl, h2⟩ := h
      have := ih pre post (fun h' => hx (List.mem_cons_of_mem _ h')) h2
      simp [this.1, this.2]

/-- The shape of the calls of an execution that passes the entry guard and reads an existing
first index definition. -/
theorem removeRowIdsMaps_calls_shape {Key Cache : Type} (ext : Collaborators Key Cache)
    (cache : Cache) (part : DataPart) (d : VectorIndexDescription)
    (ds : List VectorIndexDescription) (hdisk : part.isStoredOnDisk = true)
    (hmaps : part.containRowIdsMaps = true) (hvec : part.storage.vec_indices = d :: ds) :
    ((removeRowIdsMaps ext cache (some part)).calls = [] ∧
      (removeRowIdsMaps ext cache (some part)).abort = none ∧
      getAllOldSegementIds ext.fromPartName part.fullPath (some part) d.name d.column = []) ∨
    ((∃ e, (removeRowIdsMaps ext cache (some part)).abort = some (Abort.thrown e)) ∧
      (removeRowIdsMaps ext cache (some part)).calls <+:
        (getAllOldSegementIds ext.fromPartName part.fullPath (some part) d.name d.column).map
          (fun seg => Call.removeFromCache (ext.getCacheKey seg))) ∨
    ((removeRowIdsMaps ext cache (some part)).calls =
        (getAllOldSegementIds ext.fromPartName part.fullPath (some part) d.name d.column).map
          (fun seg => Call.removeFromCache (ext.getCacheKey seg)) ++
        [Call.removeAllRowIdsMaps]) := by
  cases hs : part.partStorage with
  | none =>
    left
    simp [removeRowIdsMaps, getAllOldSegementIds, hdisk, hmaps, hvec, hs]
  | some part_storage =>
    right
    have hold : getAllOldSegementIds ext.fromPartName part.fullPath (some part) d.name d.column =
        part.getMergedSourceParts.map (fun old_part =>
          SegmentId.ofOldPart part_storage.volume part.fullPath part.name old_part.name
            d.name d.column
            (pathAppend (pathAppend (pathAppend part.storage.vectorIndexCachePath
              part.storage.relativeDataPath)
              (ext.fromPartName old_part.name).getPartNameWithoutMutation) "")
            old_part.id) := by
      simp [getAllOldSegementIds, hs, hmaps]
    rw [hold]
    have hloop := removeOldSegmentsFromCache_calls ext
      (part.getMergedSourceParts.map (fun old_part =>
          SegmentId.ofOldPart part_storage.volume part.fullPath part.name old_part.name
            d.name d.column
            (pathAppend (pathAppend (pathAppend part.storage.vectorIndexCachePath
              part.storage.relativeDataPath)
              (ext.fromPartName old_part.name).getPartNameWithoutMutation) "")
            old_part.id)) cache
    rcases hl : removeOldSegmentsFromCache ext
      (part.getMergedSourceParts.map (fun old_part =>
          SegmentId.ofOldPart part_storage.volume part.fullPath part.name old_part.name
            d.name d.column
            (pathAppend (pathAppend (pathAppend part.storage.vectorIndexCachePath
              part.storage.relativeDataPath)
              (ext.fromPartName old_part.name).getPartNameWithoutMutation) "")
            old_part.id)) cache with ⟨cache1, calls, _ | e⟩
    · right
      rw [hl] at hloop
      have hc := hloop.2 rfl
      simp only at hc
      rcases hr : ext.removeAllRowIdsMaps part with ⟨part1, _ | e⟩ <;>
        simp [removeRowIdsMaps, hdisk, hmaps, hvec, hs, hl, hr, hc]
    · left
      rw [hl] at hloop
      have hp := hloop.1
      simp only at hp
      refine ⟨⟨e, ?_⟩, ?_⟩
      · simp [removeRowIdsMaps, hdisk, hmaps, hvec, hs, hl]
      · simpa [removeRowIdsMaps, hdisk, hmaps, hvec, hs, hl] using hp

/-- Claim C5: for a part stored on disk that carries row-id maps, of a table whose first
vector-index definition is `d`, the cache removals `removeRowIdsMaps` makes are a leading part of
the cache keys of the segment ids `getAllOldSegementIds` returns for the part's full path, the
part, `d.name` and `d.column`, and when the execution is not cut short they are exactly these
keys, one per merged source part, in order. -/
theorem removeRowIdsMaps_removes_old_segment_keys {Key Cache : Type}
    (ext : Collaborators Key Cache) (cache : Cache) (part : DataPart)
    (d : VectorIndexDescription) (ds : List VectorIndexDescription)
    (hdisk : part.isStoredOnDisk = true) (hmaps : part.containRowIdsMaps = true)
    (hvec : part.storage.vec_indices = d :: ds) :
    removalKeys (removeRowIdsMaps ext cache (some part)).calls <+:
        (getAllOldSegementIds ext.fromPartName part.fullPath (some part) d.name d.column).map
          ext.getCacheKey ∧
    ((removeRowIdsMaps ext cache (some part)).abort = none →
      removalKeys (removeRowIdsMaps ext cache (some part)).calls =
        (getAllOldSegementIds ext.fromPartName part.fullPath (some part) d.name d.column).map
          ext.getCacheKey) := by
  have hkeys : ∀ segs : List SegmentId,
      removalKeys (segs.map (fun seg => Call.removeFromCache (ext.getCacheKey seg))) =
        segs.map ext.getCacheKey := by
    intro segs
    have := removalKeys_map_removeFromCache (segs.map ext.getCacheKey)
    simpa [List.map_map, Function.comp_def] using this
  rcases removeRowIdsMaps_calls_shape ext cache part d ds hdisk hmaps hvec with
    ⟨hc, _, hold⟩ | ⟨⟨e, ha⟩, hp⟩ | hc
  · rw [hc, hold]
    simp [removalKeys]
  · refine ⟨?_, ?_⟩
    · have := removalKeys_prefix hp
      rwa [hkeys] at this
    · intro hn
      rw [ha] at hn
      cases hn
  · rw [hc, removalKeys_append, hkeys]
    simp [removalKeys]

/-- Witness of C5 on the part `C`: the two keys removed are those of the segments
inherited from `A` and `B`. -/
theorem removeRowIdsMaps_removes_old_segment_keys_witness :
    removalKeys (removeRowIdsMaps exampleCollaborators [] (some examplePartC)).calls =
      (getAllOldSegementIds exampleFromPartName "/data/store/t/all_1_2_1/" (some examplePartC)
        "idx" "vec").map (fun seg => seg) :=
  (removeRowIdsMaps_removes_old_segment_keys exampleCollaborators [] examplePartC
    { name := "idx", column := "vec" } [] rfl rfl rfl).2 rfl

/-- Claim C6: in every execution of `removeRowIdsMaps`, a call of `removeAllRowIdsMaps` is
the last call made, and the calls before it are the cache removals of all inherited segments,
in order: no removal follows the deletion, and the deletion is not made before every removal
has been made. -/
theorem removeRowIdsMaps_cache_removal_before_deletion {Key Cache : Type}
    (ext : Collaborators Key Cache) (cache : Cache) (data_part : Option DataPart)
    (pre post : List (Call Key))
    (hcalls : (removeRowIdsMaps ext cache data_part).calls =
      pre ++ Call.removeAllRowIdsMaps :: post) :
    post = [] ∧
    ∃ (part : DataPart) (d : VectorIndexDescription),
      data_part = some part ∧ part.storage.vec_indices.head? = some d ∧
      pre = (getAllOldSegementIds ext.fromPartName part.fullPath (some part) d.name
          d.column).map (fun seg => Call.removeFromCache (ext.getCacheKey seg)) := by
  cases data_part with
  | none => simp [removeRowIdsMaps] at hcalls
  | some part =>
    cases hdisk : part.isStoredOnDisk with
    | false => simp [removeRowIdsMaps, hdisk] at hcalls
    | true =>
      cases hmaps : part.containRowIdsMaps with
      | false => simp [removeRowIdsMaps, hmaps] at hcalls
      | true =>
        cases hvec : part.storage.vec_indices with
        | nil => simp [removeRowIdsMaps, hdisk, hmaps, hvec] at hcalls
        | cons d ds =>
          rcases removeRowIdsMaps_calls_shape ext cache part d ds hdisk hmaps hvec with
            ⟨hc, _, _⟩ | ⟨_, hp⟩ | hc
          · rw [hc] at hcalls
            simp at hcalls
          · exfalso
            have hmem : Call.removeAllRowIdsMaps ∈
                (removeRowIdsMaps ext cache (some part)).calls := by
              rw [hcalls]; simp
            have := hp.subset hmem
            simp at this
          · rw [hc] at hcalls
            have hnot : Call.removeAllRowIdsMaps ∉
                (getAllOldSegementIds ext.fromPartName part.fullPath (some part) d.name
                  d.column).map (fun seg => Call.removeFromCache (ext.getCacheKey seg)) := by
              simp
            have := split_at_last_call _ _ pre post hnot hcalls.symm
            exact ⟨this.2, part, d, rfl, by rw [hvec]; rfl, this.1⟩

/-- Witness of C6 on the part `C`: the two removals come first, the deletion last. -/
theorem removeRowIdsMaps_cache_removal_before_deletion_witness :
    ([] : List (Call SegmentId)) = [] ∧
    ∃ (part : DataPart) (d : VectorIndexDescription),
      some examplePartC = some part ∧ part.storage.vec_indices.head? = some d ∧
      (getAllOldSegementIds exampleFromPartName "/data/store/t/all_1_2_1/" (some examplePartC)
          "idx" "vec").map Call.removeFromCache =
        (getAllOldSegementIds exampleCollaborators.fromPartName part.fullPath (some part) d.name
          d.column).map (fun seg => Call.removeFromCache (exampleCollaborators.getCacheKey seg)) :=
  removeRowIdsMaps_cache_removal_before_deletion exampleCollaborators [] (some examplePartC)
    ((getAllOldSegementIds exampleFromPartName "/data/store/t/all_1_2_1/" (some examplePartC)
      "idx" "vec").map Call.removeFromCache) [] rfl

/-- On a part with nothing to remove, `removeRowIdsMaps` makes no call, raises nothing and
leaves the cache and the part as they are. -/
theorem removeRowIdsMaps_of_nothingToRemove {Key Cache : Type} (ext : Collaborators Key Cache)
    (cache : Cache) (data_part : Option DataPart) (h : nothingToRemove data_part = true) :
    removeRowIdsMaps ext cache data_part =
      { cache := cache, part := data_part, calls := [], abort := none } := by
  cases data_part with
  | none => simp [removeRowIdsMaps]
  | some part =>
    simp only [nothingToRemove, Bool.or_eq_true, Bool.and_eq_true, Bool.not_eq_true'] at h
    rcases h with (h | h) | ⟨hv, hs⟩
    · simp [removeRowIdsMaps, h]
    · simp [removeRowIdsMaps, h]
    · cases hvec : part.storage.vec_indices with
      | nil => simp [hvec] at hv
      | cons d ds =>
        have hs2 : part.partStorage = none := by simpa using hs
        by_cases hg : (!part.isStoredOnDisk || !part.containRowIdsMaps) = true
        · simp [removeRowIdsMaps, hg]
        · simp [removeRowIdsMaps, hg, hvec, hs2]

/-- After an execution of `removeRowIdsMaps` that returns, nothing is left to remove, when
`removeAllRowIdsMaps` clears the row-id-map marker. -/
theorem nothingToRemove_after_return {Key Cache : Type} (ext : Collaborators Key Cache)
    (hclear : ∀ p : DataPart, (ext.removeAllRowIdsMaps p).2 = none →
      (ext.removeAllRowIdsMaps p).1.containRowIdsMaps = false)
    (cache : Cache) (data_part : Option DataPart)
    (hfirst : (removeRowIdsMaps ext cache data_part).abort = none) :
    nothingToRemove (removeRowIdsMaps ext cache data_part).part = true := by
  cases data_part with
  | none => simp [removeRowIdsMaps, nothingToRemove]
  | some part =>
    by_cases hg : (!part.isStoredOnDisk || !part.containRowIdsMaps) = true
    · have : nothingToRemove (some part) = true := by
        simp only [nothingToRemove, hg, Bool.true_or]
      simpa [removeRowIdsMaps, hg] using this
    · cases hvec : part.storage.vec_indices with
      | nil => simp [removeRowIdsMaps, hg, hvec] at hfirst
      | cons d ds =>
        cases hs : part.partStorage with
        | none =>
          have : nothingToRemove (some part) = true := by
            simp [nothingToRemove, hvec, hs]
          simpa [removeRowIdsMaps, hg, hvec, hs] using this
        | some part_storage =>
          rcases hl : removeOldSegmentsFromCache ext
            (part.getMergedSourceParts.map (fun old_part =>
                SegmentId.ofOldPart part_storage.volume part.fullPath part.name old_part.name
                  d.name d.column
                  (pathAppend (pathAppend (pathAppend part.storage.vectorIndexCachePath
                    part.storage.relativeDataPath)
                    (ext.fromPartName old_part.name).getPartNameWithoutMutation) "")
                  old_part.id)) cache with ⟨cache1, calls, _ | e⟩
          · rcases hr : ext.removeAllRowIdsMaps part with ⟨part1, _ | e⟩
            · have h1 := hclear part
              rw [hr] at h1
              have h2 : part1.containRowIdsMaps = false := h1 rfl
              have : nothingToRemove (some part1) = true := by
                simp [nothingToRemove, h2]
              simpa [removeRowIdsMaps, hg, hvec, hs, hl, hr] using this
            · simp [removeRowIdsMaps, hg, hvec, hs, hl, hr] at hfirst
          · simp [removeRowIdsMaps, hg, hvec, hs, hl] at hfirst

/-- Claim C7: `removeRowIdsMaps` is idempotent. When `removeAllRowIdsMaps` clears the part's
row-id-map marker and a first call has returned, a second call on the cache and the part the
first call left makes no call (no cache removal, no deletion), raises nothing, and leaves the
cache and the part as the first call left them. -/
theorem removeRowIdsMaps_idempotent {Key Cache : Type} (ext : Collaborators Key Cache)
    (hclear : ∀ p : DataPart, (ext.removeAllRowIdsMaps p).2 = none →
      (ext.removeAllRowIdsMaps p).1.containRowIdsMaps = false)
    (cache : Cache) (data_part : Option DataPart)
    (hfirst : (removeRowIdsMaps ext cache data_part).abort = none) :
    (removeRowIdsMaps ext (removeRowIdsMaps ext cache data_part).cache
        (removeRowIdsMaps ext cache data_part).part).calls = [] ∧
    (removeRowIdsMaps ext (removeRowIdsMaps ext cache data_part).cache
        (removeRowIdsMaps ext cache data_part).part).abort = none ∧
    (removeRowIdsMaps ext (removeRowIdsMaps ext cache data_part).cache
        (removeRowIdsMaps ext cache data_part).part).cache =
      (removeRowIdsMaps ext cache data_part).cache ∧
    (removeRowIdsMaps ext (removeRowIdsMaps ext cache data_part).cache
        (removeRowIdsMaps ext cache data_part).part).part =
      (removeRowIdsMaps ext cache data_part).part := by
  have h := removeRowIdsMaps_of_nothingToRemove ext (removeRowIdsMaps ext cache data_part).cache
    (removeRowIdsMaps ext cache data_part).part
    (nothingToRemove_after_return ext hclear cache data_part hfirst)
  rw [h]
  exact ⟨rfl, rfl, rfl, rfl⟩

/-- Witness of C7 on the part `C`: the second call makes no call. -/
theorem removeRowIdsMaps_idempotent_witness :
    (removeRowIdsMaps exampleCollaborators [] (some examplePartC)).abort = none ∧
    (removeRowIdsMaps exampleCollaborators
        (removeRowIdsMaps exampleCollaborators [] (some examplePartC)).cache
        (removeRowIdsMaps exampleCollaborators [] (some examplePartC)).part).calls = [] :=
  ⟨rfl, (removeRowIdsMaps_idempotent exampleCollaborators (fun _ _ => rfl) []
    (some examplePartC) rfl).1⟩

end VectorIndex

/-! ## Relocating index files: `renameVectorIndexFiles` -/

namespace VectorIndex

open DB (Thrown)

/-- No character of a file name is the separator. -/
theorem filename_data_no_separator (p : String) : ∀ c ∈ (filename p).data, (c != '/') = true := by
  intro c hc
  simp only [filename, List.mem_reverse] at hc
  exact List.mem_takeWhile_imp (p := fun c => c != '/') hc

/-- The file name of a path that ends with the file name of `p` ends with it too. -/
theorem filename_append_fileName (x p : String) :
    ∃ y : List Char, (filename (x ++ fileName p)).data = y ++ (filename p).data := by
  refine ⟨(x.data.reverse.takeWhile (fun c => c != '/')).reverse, ?_⟩
  have hall : ∀ c ∈ (filename p).data.reverse, (c != '/') = true := by
    intro c hc
    exact filename_data_no_separator p c (List.mem_reverse.mp hc)
  have hdata : (x ++ fileName p).data = x.data ++ (filename p).data := by
    simp [fileName]
  have hfn : (filename (x ++ fileName p)).data =
      (((x ++ fileName p).data.reverse).takeWhile (fun c => c != '/')).reverse := rfl
  rw [hfn, hdata, List.reverse_append, List.takeWhile_append_of_pos hall]
  simp

/-- The leading run of a list that breaks off inside its first part. -/
theorem takeWhile_append_of_not_all {α : Type} (q : α → Bool) :
    ∀ (a b : List α), a.all q = false → (a ++ b).takeWhile q = a.takeWhile q
  | [], _, h => by simp at h
  | c :: a, b, h => by
    cases hq : q c
    · simp [List.takeWhile, hq]
    · have : a.all q = false := by simpa [List.all_cons, hq] using h
      simp [List.takeWhile, hq, takeWhile_append_of_not_all q a b this]

/-- The leading run of a list that breaks off is shorter than the list. -/
theorem length_takeWhile_lt_of_not_all {α : Type} (q : α → Bool) :
    ∀ a : List α, a.all q = false → (a.takeWhile q).length < a.length
  | [], h => by simp at h
  | c :: a, h => by
    cases hq : q c
    · simp [List.takeWhile, hq]
    · have : a.all q = false := by simpa [List.all_cons, hq] using h
      simpa [List.takeWhile, hq] using length_takeWhile_lt_of_not_all q a this

/-- The extension in terms of the characters of the file name. -/
theorem extension_of_data (f : List Char) (p : String) (hp : (filename p).data = f) :
    extension p =
      if f = ['.'] ∨ f = ['.', '.'] then ""
      else if f.all (fun c => c != '.') then ""
      else if f.length = ((f.reverse.takeWhile (fun c => c != '.')).reverse).length + 1 then ""
      else String.mk ('.' :: (f.reverse.takeWhile (fun c => c != '.')).reverse) := by
  subst hp
  rfl

/-- A name built by putting text in front of the file name of an index file has the
index-file extension too. -/
theorem extension_merged_name (x p : String) (h : extension p = ".vidx3") :
    extension (x ++ fileName p) = ".vidx3" := by
  obtain ⟨y, hy⟩ := filename_append_fileName x p
  rw [extension_of_data _ _ hy]
  rw [extension_of_data _ p rfl] at h
  generalize (filename p).data = f at h ⊢
  split_ifs at h with h1 h2 h3
  · exact absurd h (by decide)
  · exact absurd h (by decide)
  · exact absurd h (by decide)
  · have hall : f.all (fun c => c != '.') = false := by simpa using h2
    have hrall : f.reverse.all (fun c => c != '.') = false := by
      rw [List.all_reverse]; exact hall
    have htw : ((y ++ f).reverse.takeWhile (fun c => c != '.')) =
        (f.reverse.takeWhile (fun c => c != '.')) := by
      rw [List.reverse_append]
      exact takeWhile_append_of_not_all _ _ _ hrall
    have hlen := length_takeWhile_lt_of_not_all _ _ hrall
    have htail : (f.reverse.takeWhile (fun c => c != '.')).reverse = ['v', 'i', 'd', 'x', '3'] := by
      have := congrArg String.data h
      simpa using this
    have hlen5 : (f.reverse.takeWhile (fun c => c != '.')).length = 5 := by
      have := congrArg List.length htail
      simpa using this
    simp only [List.length_reverse] at hlen h3
    have hf : 7 ≤ f.length := by omega
    rw [htw, htail]
    have c1 : ¬ (y ++ f = ['.'] ∨ y ++ f = ['.', '.']) := by
      rintro (hc | hc) <;> · have := congrArg List.length hc; simp at this; omega
    have c2 : ¬ ((y ++ f).all (fun c => c != '.') = true) := by
      simp only [List.all_append, hall, Bool.and_false]
      decide
    have c3 : ¬ ((y ++ f).length = (['v', 'i', 'd', 'x', '3'] : List Char).length + 1) := by
      simp; omega
    rw [if_neg c1, if_neg c2, if_neg c3]

/-- The body of the loop for an entry with the index-file extension: one rename, whose
exception, if any, is that of the body. -/
theorem renameEntry_of_index_file {Fs : Type} (sys : FileSystem Fs)
    (part_id part_name new_path : String) (p : DirectoryEntry) (fs : Fs)
    (hext : extension p.path = VECTOR_INDEX_FILE_SUFFIX) :
    renameEntry sys part_id part_name new_path p fs =
      { fs := (sys.rename p.path
          (new_path ++ "merged-" ++ part_id ++ "-" ++ part_name ++ "-" ++ fileName p.path)
          fs).1
        renames := [(p.path,
          new_path ++ "merged-" ++ part_id ++ "-" ++ part_name ++ "-" ++ fileName p.path)]
        thrown := (sys.rename p.path
          (new_path ++ "merged-" ++ part_id ++ "-" ++ part_name ++ "-" ++ fileName p.path)
          fs).2 } := by
  simp only [renameEntry, hext, if_true]

/-- The body of the loop for an entry with another extension: nothing is done. -/
theorem renameEntry_of_other_file {Fs : Type} (sys : FileSystem Fs)
    (part_id part_name new_path : String) (p : DirectoryEntry) (fs : Fs)
    (hext : extension p.path ≠ VECTOR_INDEX_FILE_SUFFIX) :
    renameEntry sys part_id part_name new_path p fs =
      { fs := fs, renames := [], thrown := none } := by
  simp only [renameEntry, hext, if_false]

/-- The renames of the body are those of the entry when it has the index-file extension, and
none otherwise. -/
theorem renameEntry_renames {Fs : Type} (sys : FileSystem Fs)
    (part_id part_name new_path : String) (p : DirectoryEntry) (fs : Fs) :
    (renameEntry sys part_id part_name new_path p fs).renames =
      ([p].filter (fun p => extension p.path = VECTOR_INDEX_FILE_SUFFIX)).map
        (fun p => (p.path,
          new_path ++ "merged-" ++ part_id ++ "-" ++ part_name ++ "-" ++ fileName p.path)) := by
  by_cases hext : extension p.path = VECTOR_INDEX_FILE_SUFFIX
  · rw [renameEntry_of_index_file sys part_id part_name new_path p fs hext]
    simp [hext]
  · rw [renameEntry_of_other_file sys part_id part_name new_path p fs hext]
    simp [hext]

/-- One step of the loop, by what the body and the increment raise. -/
theorem renameLoop_cons {Fs : Type} (sys : FileSystem Fs)
    (part_id part_name new_path : String) (p : DirectoryEntry) (rest : List DirectoryEntry)
    (fs : Fs) :
    ((renameEntry sys part_id part_name new_path p fs).thrown = none →
      incrementPast sys p (renameEntry sys part_id part_name new_path p fs).fs = none →
      renameLoop sys part_id part_name new_path (p :: rest) fs =
        { fs := (renameLoop sys part_id part_name new_path rest
            (renameEntry sys part_id part_name new_path p fs).fs).fs
          renames := (renameEntry sys part_id part_name new_path p fs).renames ++
            (renameLoop sys part_id part_name new_path rest
              (renameEntry sys part_id part_name new_path p fs).fs).renames
          thrown := (renameLoop sys part_id part_name new_path rest
            (renameEntry sys part_id part_name new_path p fs).fs).thrown }) ∧
    (∀ e, (renameEntry sys part_id part_name new_path p fs).thrown = some e →
      renameLoop sys part_id part_name new_path (p :: rest) fs =
        { fs := (renameEntry sys part_id part_name new_path p fs).fs
          renames := (renameEntry sys part_id part_name new_path p fs).renames
          thrown := some e }) ∧
    (∀ e, (renameEntry sys part_id part_name new_path p fs).thrown = none →
      incrementPast sys p (renameEntry sys part_id part_name new_path p fs).fs = some e →
      renameLoop sys part_id part_name new_path (p :: rest) fs =
        { fs := (renameEntry sys part_id part_name new_path p fs).fs
          renames := (renameEntry sys part_id part_name new_path p fs).renames
          thrown := some e }) := by
  refine ⟨?_, ?_, ?_⟩
  · intro h1 h2
    simp only [renameLoop, h1, h2]
  · intro e h1
    simp only [renameLoop, h1]
  · intro e h1 h2
    simp only [renameLoop, h1, h2]

/-- The renames `renameVectorIndexFiles` makes are a leading part of the renames of the
entries with the index-file extension, in the order of the entries, and all of them when
nothing raises. -/
theorem renameLoop_renames {Fs : Type} (sys : FileSystem Fs)
    (part_id part_name new_path : String) :
    ∀ (entries : List DirectoryEntry) (fs : Fs),
      (renameLoop sys part_id part_name new_path entries fs).renames <+:
          (entries.filter (fun p => extension p.path = VECTOR_INDEX_FILE_SUFFIX)).map
            (fun p => (p.path, new_path ++ "merged-" ++ part_id ++ "-" ++ part_name ++ "-" ++
              fileName p.path)) ∧
      ((renameLoop sys part_id part_name new_path entries fs).thrown = none →
        (renameLoop sys part_id part_name new_path entries fs).renames =
          (entries.filter (fun p => extension p.path = VECTOR_INDEX_FILE_SUFFIX)).map
            (fun p => (p.path, new_path ++ "merged-" ++ part_id ++ "-" ++ part_name ++ "-" ++
              fileName p.path))) := by
  intro entries
  induction entries with
  | nil => intro fs; simp [renameLoop]
  | cons p rest ih =>
    intro fs
    have hsplit : ((p :: rest).filter
          (fun p => extension p.path = VECTOR_INDEX_FILE_SUFFIX)).map
          (fun p => (p.path, new_path ++ "merged-" ++ part_id ++ "-" ++ part_name ++ "-" ++
            fileName p.path)) =
        (renameEntry sys part_id part_name new_path p fs).renames ++
          (rest.filter (fun p => extension p.path = VECTOR_INDEX_FILE_SUFFIX)).map
            (fun p => (p.path, new_path ++ "merged-" ++ part_id ++ "-" ++ part_name ++ "-" ++
              fileName p.path)) := by
      rw [renameEntry_renames]
      rw [← List.map_append, ← List.filter_append]
      rfl
    rw [hsplit]
    have hstep := renameLoop_cons sys part_id part_name new_path p rest fs
    cases hb : (renameEntry sys part_id part_name new_path p fs).thrown with
    | some e =>
      rw [hstep.2.1 e hb]
      exact ⟨List.prefix_append _ _, fun h => by simp at h⟩
    | none =>
      cases hi : incrementPast sys p (renameEntry sys part_id part_name new_path p fs).fs with
      | some e =>
        rw [hstep.2.2 e hb hi]
        exact ⟨List.prefix_append _ _, fun h => by simp at h⟩
      | none =>
        rw [hstep.1 hb hi]
        have := ih (renameEntry sys part_id part_name new_path p fs).fs
        refine ⟨(List.prefix_append_right_inj _).mpr this.1, ?_⟩
        intro hn
        simp only at hn ⊢
        rw [this.2 hn]

/-- The loop over two lists of entries in a row, the first of which raises nothing. -/
theorem renameLoop_append {Fs : Type} (sys : FileSystem Fs)
    (part_id part_name new_path : String) (rest : List DirectoryEntry) :
    ∀ (pre : List DirectoryEntry) (fs : Fs),
      (renameLoop sys part_id part_name new_path pre fs).thrown = none →
      renameLoop sys part_id part_name new_path (pre ++ rest) fs =
        { fs := (renameLoop sys part_id part_name new_path rest
            (renameLoop sys part_id part_name new_path pre fs).fs).fs
          renames := (renameLoop sys part_id part_name new_path pre fs).renames ++
            (renameLoop sys part_id part_name new_path rest
              (renameLoop sys part_id part_name new_path pre fs).fs).renames
          thrown := (renameLoop sys part_id part_name new_path rest
            (renameLoop sys part_id part_name new_path pre fs).fs).thrown } := by
  intro pre
  induction pre with
  | nil => intro fs _; simp [renameLoop]
  | cons p pre ih =>
    intro fs hn
    rw [List.cons_append]
    have hstep := renameLoop_cons sys part_id part_name new_path p
    cases hb : (renameEntry sys part_id part_name new_path p fs).thrown with
    | some e =>
      rw [(hstep pre fs).2.1 e hb] at hn
      simp at hn
    | none =>
      cases hi : incrementPast sys p (renameEntry sys part_id part_name new_path p fs).fs with
      | some e =>
        rw [(hstep pre fs).2.2 e hb hi] at hn
        simp at hn
      | none =>
        rw [(hstep pre fs).1 hb hi] at hn ⊢
        rw [(hstep (pre ++ rest) fs).1 hb hi]
        simp only at hn
        rw [ih _ hn]
        simp

/-- Counterexample to C9: the rename of the second of three index files is refused. The
exception reaches the caller, and the third index file is not relocated: it still stands at
its old path and nothing stands at the path it would have been renamed to. -/
theorem renameVectorIndexFiles_failure_aborts :
    (renameVectorIndexFiles (exampleFileSystem ["/data/A/b.vidx3"]) "0" "A" "/data/A/"
        "/data/C/" exampleThreeIndexFiles).thrown =
      some (Thrown.other "filesystem error: cannot rename") ∧
    extension "/data/A/c.vidx3" = ".vidx3" ∧
    (exampleFileSystem ["/data/A/b.vidx3"]).lookup
        (renameVectorIndexFiles (exampleFileSystem ["/data/A/b.vidx3"]) "0" "A" "/data/A/"
          "/data/C/" exampleThreeIndexFiles).fs "/data/A/c.vidx3" =
      some (Node.file "third") ∧
    (exampleFileSystem ["/data/A/b.vidx3"]).lookup
        (renameVectorIndexFiles (exampleFileSystem ["/data/A/b.vidx3"]) "0" "A" "/data/A/"
          "/data/C/" exampleThreeIndexFiles).fs "/data/C/merged-0-A-c.vidx3" = none :=
  ⟨by decide, by decide, by decide, by decide⟩

/-- Claim C9, amended: a rename that fails is not caught. When the entries of the directory
are `before`, then `p`, then `after`, the loop over `before` raises nothing, `p` has the
extension `.vidx3` and its rename raises `e` in the state the loop over `before` has reached,
then `e` reaches the caller; the renames made are those of the `.vidx3` entries of `before`
followed by the failed one, so no entry of `after` is renamed; and the state left is the one
the failed rename leaves after the renames of `before`, which nothing undoes. -/
theorem renameVectorIndexFiles_failed_rename_escapes {Fs : Type} (sys : FileSystem Fs)
    (part_id part_name old_path new_path : String) (fs : Fs)
    (before after : List DirectoryEntry) (p : DirectoryEntry) (e : Thrown)
    (hentries : sys.entries fs old_path = Except.ok (before ++ p :: after))
    (hbefore : (renameLoop sys part_id part_name new_path before fs).thrown = none)
    (hext : extension p.path = ".vidx3")
    (hfail : (sys.rename p.path
        (new_path ++ "merged-" ++ part_id ++ "-" ++ part_name ++ "-" ++ fileName p.path)
        (renameLoop sys part_id part_name new_path before fs).fs).2 = some e) :
    (renameVectorIndexFiles sys part_id part_name old_path new_path fs).thrown = some e ∧
    (renameVectorIndexFiles sys part_id part_name old_path new_path fs).renames =
      (before.filter (fun p => extension p.path = ".vidx3")).map
          (fun p => (p.path, new_path ++ "merged-" ++ part_id ++ "-" ++ part_name ++ "-" ++
            fileName p.path)) ++
        [(p.path, new_path ++ "merged-" ++ part_id ++ "-" ++ part_name ++ "-" ++
          fileName p.path)] ∧
    (renameVectorIndexFiles sys part_id part_name old_path new_path fs).fs =
      (sys.rename p.path
        (new_path ++ "merged-" ++ part_id ++ "-" ++ part_name ++ "-" ++ fileName p.path)
        (renameLoop sys part_id part_name new_path before fs).fs).1 := by
  have hrun : renameVectorIndexFiles sys part_id part_name old_path new_path fs =
      renameLoop sys part_id part_name new_path (before ++ p :: after) fs := by
    simp only [renameVectorIndexFiles, hentries]
  have hbody := renameEntry_of_index_file sys part_id part_name new_path p
    (renameLoop sys part_id part_name new_path before fs).fs hext
  have hthrown : (renameEntry sys part_id part_name new_path p
      (renameLoop sys part_id part_name new_path before fs).fs).thrown = some e := by
    rw [hbody]
    exact hfail
  have hstep := (renameLoop_cons sys part_id part_name new_path p after
    (renameLoop sys part_id part_name new_path before fs).fs).2.1 e hthrown
  have hpre := (renameLoop_renames sys part_id part_name new_path before fs).2 hbefore
  rw [hrun, renameLoop_append sys part_id part_name new_path (p :: after) before fs hbefore,
    hstep, hbody, hpre]
  exact ⟨rfl, rfl, rfl⟩

/-- Witness of the amended C9 on a directory of three index files, the second of which is
locked: the first is renamed and stays renamed, the rename of the second raises, and the
third still stands at its old path. -/
theorem renameVectorIndexFiles_failed_rename_escapes_witness :
    (renameVectorIndexFiles (exampleFileSystem ["/data/A/b.vidx3"]) "0" "A" "/data/A/"
        "/data/C/" exampleThreeIndexFiles).thrown =
      some (Thrown.other "filesystem error: cannot rename") ∧
    (renameVectorIndexFiles (exampleFileSystem ["/data/A/b.vidx3"]) "0" "A" "/data/A/"
        "/data/C/" exampleThreeIndexFiles).renames =
      [("/data/A/a.vidx3", "/data/C/merged-0-A-a.vidx3"),
        ("/data/A/b.vidx3", "/data/C/merged-0-A-b.vidx3")] ∧
    (exampleFileSystem ["/data/A/b.vidx3"]).lookup
        (renameVectorIndexFiles (exampleFileSystem ["/data/A/b.vidx3"]) "0" "A" "/data/A/"
          "/data/C/" exampleThreeIndexFiles).fs "/data/C/merged-0-A-a.vidx3" =
      some (Node.file "first") ∧
    (exampleFileSystem ["/data/A/b.vidx3"]).lookup
        (renameVectorIndexFiles (exampleFileSystem ["/data/A/b.vidx3"]) "0" "A" "/data/A/"
          "/data/C/" exampleThreeIndexFiles).fs "/data/A/a.vidx3" = none :=
  ⟨(renameVectorIndexFiles_failed_rename_escapes (exampleFileSystem ["/data/A/b.vidx3"]) "0"
      "A" "/data/A/" "/data/C/" exampleThreeIndexFiles
      [{ path := "/data/A/a.vidx3", is_directory := false }]
      [{ path := "/data/A/c.vidx3", is_directory := false }]
      { path := "/data/A/b.vidx3", is_directory := false }
      (Thrown.other "filesystem error: cannot rename") rfl (by decide) (by decide)
      (by decide)).1,
    (renameVectorIndexFiles_failed_rename_escapes (exampleFileSystem ["/data/A/b.vidx3"]) "0"
      "A" "/data/A/" "/data/C/" exampleThreeIndexFiles
      [{ path := "/data/A/a.vidx3", is_directory := false }]
      [{ path := "/data/A/c.vidx3", is_directory := false }]
      { path := "/data/A/b.vidx3", is_directory := false }
      (Thrown.other "filesystem error: cannot rename") rfl (by decide) (by decide)
      (by decide)).2.1,
    by decide, by decide⟩

end VectorIndex

/-! ## File names and the first index definition -/

namespace VectorIndex

open DB (Thrown)

/-- The extension of a path is that of its file name. -/
theorem extension_filename (p : String) : extension (filename p) = extension p := by
  have hdata : (filename (filename p)).data = (filename p).data := by
    have hself : ((filename p).data.reverse.takeWhile (fun c => c != '/')) =
        (filename p).data.reverse := by
      rw [List.takeWhile_eq_self_iff]
      intro c hc
      exact filename_data_no_separator p c (List.mem_reverse.mp hc)
    show (((filename p).data.reverse.takeWhile (fun c => c != '/')).reverse) = (filename p).data
    rw [hself, List.reverse_reverse]
  rw [extension_of_data _ (filename p) hdata, extension_of_data _ p rfl]

/-- A description file has the index-file extension. -/
theorem extension_of_description_file (index_name p : String)
    (hp : fileName p = getVectorIndexDescriptionFileName index_name) :
    extension p = ".vidx3" := by
  have h1 : extension (index_name ++ fileName "-vector_index_description.vidx3") = ".vidx3" :=
    extension_merged_name index_name "-vector_index_description.vidx3" (by decide)
  have h2 : index_name ++ fileName "-vector_index_description.vidx3" =
      getVectorIndexDescriptionFileName index_name := by
    have : fileName "-vector_index_description.vidx3" = "-vector_index_description.vidx3" := by
      decide
    rw [this]
    simp only [getVectorIndexDescriptionFileName, VECTOR_INDEX_DESCRIPTION,
      VECTOR_INDEX_FILE_SUFFIX, String.append_assoc]
    rfl
  rw [h2, ← hp] at h1
  rw [← extension_filename p]
  exact h1

/-- Claim C17: for every index name `i`, source part ordinal `k` and source part name `n`,
the description file name is `i + "-vector_index_description.vidx3"`, the checksums file name
is `i + "-vector_index_checksums.vidx3"`, and the decoupled description file name is
`"merged-" + decimal(k) + "-" + n + "-"` followed by the description file name; and
`renameVectorIndexFiles`, called with `part_id = decimal(k)` and `part_name = n`, renames a
directory entry whose file name is the description file name to `new_path` followed by the
decoupled description file name. -/
theorem file_name_builders_match_naming_convention (index_name : String) (old_part_id : Int)
    (old_part_name : String) :
    getVectorIndexDescriptionFileName index_name =
      index_name ++ "-vector_index_description.vidx3" ∧
    getVectorIndexChecksumsFileName index_name =
      index_name ++ "-vector_index_checksums.vidx3" ∧
    getDecoupledVectorIndexDescriptionFileName index_name old_part_id old_part_name =
      "merged-" ++ toString old_part_id ++ "-" ++ old_part_name ++ "-" ++
        getVectorIndexDescriptionFileName index_name ∧
    (∀ {Fs : Type} (sys : FileSystem Fs) (old_path new_path : String) (fs : Fs)
        (entries : List DirectoryEntry) (p : DirectoryEntry),
      sys.entries fs old_path = Except.ok entries →
      p ∈ entries →
      fileName p.path = getVectorIndexDescriptionFileName index_name →
      (∀ r ∈ (renameVectorIndexFiles sys (toString old_part_id) old_part_name old_path
          new_path fs).renames,
        r.1 = p.path →
        r.2 = new_path ++
          getDecoupledVectorIndexDescriptionFileName index_name old_part_id old_part_name) ∧
      ((renameVectorIndexFiles sys (toString old_part_id) old_part_name old_path new_path
          fs).thrown = none →
        (p.path, new_path ++
            getDecoupledVectorIndexDescriptionFileName index_name old_part_id old_part_name) ∈
          (renameVectorIndexFiles sys (toString old_part_id) old_part_name old_path new_path
            fs).renames)) := by
  have hname : ∀ (new_path p : String),
      fileName p = getVectorIndexDescriptionFileName index_name →
      new_path ++ "merged-" ++ toString old_part_id ++ "-" ++ old_part_name ++ "-" ++
          fileName p =
        new_path ++
          getDecoupledVectorIndexDescriptionFileName index_name old_part_id old_part_name := by
    intro new_path p hp
    rw [hp]
    simp only [getDecoupledVectorIndexDescriptionFileName, String.append_assoc]
  refine ⟨?_, ?_, rfl, ?_⟩
  · simp only [getVectorIndexDescriptionFileName, VECTOR_INDEX_DESCRIPTION,
      VECTOR_INDEX_FILE_SUFFIX, String.append_assoc]
    rfl
  · simp only [getVectorIndexChecksumsFileName, VECTOR_INDEX_CHECKSUMS,
      VECTOR_INDEX_FILE_SUFFIX, String.append_assoc]
    rfl
  · intro Fs sys old_path new_path fs entries p hentries hmem hp
    have hrun : renameVectorIndexFiles sys (toString old_part_id) old_part_name old_path
        new_path fs =
        renameLoop sys (toString old_part_id) old_part_name new_path entries fs := by
      simp only [renameVectorIndexFiles, hentries]
    rw [hrun]
    have hloop := renameLoop_renames sys (toString old_part_id) old_part_name new_path
      entries fs
    refine ⟨?_, ?_⟩
    · intro r hr hsrc
      have hm := hloop.1.subset hr
      obtain ⟨q, _, rfl⟩ := List.mem_map.mp hm
      simp only at hsrc
      rw [← hsrc] at hp
      exact hname new_path q.path hp
    · intro hnone
      have heq := hloop.2 hnone
      rw [heq, ← hname new_path p.path hp]
      refine List.mem_map.mpr ⟨p, List.mem_filter.mpr ⟨hmem, ?_⟩, rfl⟩
      have := extension_of_description_file index_name p.path hp
      simpa [VECTOR_INDEX_FILE_SUFFIX] using this

/-- Witness of C17 on the directory of `A`: the description file of `idx` is renamed to the
decoupled description file name for ordinal 0 and part `A`. -/
theorem file_name_builders_match_naming_convention_witness :
    ("/data/A/idx-vector_index_description.vidx3",
        "/data/C/" ++ getDecoupledVectorIndexDescriptionFileName "idx" 0 "A") ∈
      (renameVectorIndexFiles (exampleFileSystem []) (toString (0 : Int)) "A" "/data/A/"
        "/data/C/" exampleOldDirectory).renames :=
  ((file_name_builders_match_naming_convention "idx" 0 "A").2.2.2 (exampleFileSystem [])
    "/data/A/" "/data/C/" exampleOldDirectory _
    { path := "/data/A/idx-vector_index_description.vidx3", is_directory := false }
    rfl (by decide) (by decide)).2 (by decide)

/-- Claim C18: for a part that passes the entry guard of `removeRowIdsMaps` (non-null, stored
on disk, carrying row-id maps), the read of `vec_indices[0]` is in range if and only if the
table's metadata holds at least one vector-index definition; with at least one definition no
execution indexes out of range. -/
theorem removeRowIdsMaps_first_definition_in_range {Key Cache : Type}
    (ext : Collaborators Key Cache) (cache : Cache) (part : DataPart)
    (hdisk : part.isStoredOnDisk = true) (hmaps : part.containRowIdsMaps = true) :
    ((removeRowIdsMaps ext cache (some part)).abort ≠ some Abort.outOfRange ↔
      0 < part.storage.vec_indices.length) ∧
    (0 < part.storage.vec_indices.length →
      ∀ cache1 : Cache,
        (removeRowIdsMaps ext cache1 (some part)).abort ≠ some Abort.outOfRange) := by
  have key : ∀ cache1 : Cache, 0 < part.storage.vec_indices.length →
      (removeRowIdsMaps ext cache1 (some part)).abort ≠ some Abort.outOfRange := by
    intro cache1 hlen
    cases hvec : part.storage.vec_indices with
    | nil => simp [hvec] at hlen
    | cons d ds =>
      cases hs : part.partStorage with
      | none => simp [removeRowIdsMaps, hdisk, hmaps, hvec, hs]
      | some part_storage =>
        rcases hl : removeOldSegmentsFromCache ext
          (part.getMergedSourceParts.map (fun old_part =>
              SegmentId.ofOldPart part_storage.volume part.fullPath part.name old_part.name
                d.name d.column
                (pathAppend (pathAppend (pathAppend part.storage.vectorIndexCachePath
                  part.storage.relativeDataPath)
                  (ext.fromPartName old_part.name).getPartNameWithoutMutation) "")
                old_part.id)) cache1 with ⟨cache2, calls, _ | e⟩
        · rcases hr : ext.removeAllRowIdsMaps part with ⟨part1, _ | e⟩ <;>
            simp [removeRowIdsMaps, hdisk, hmaps, hvec, hs, hl, hr]
        · simp [removeRowIdsMaps, hdisk, hmaps, hvec, hs, hl]
  refine ⟨⟨?_, key cache⟩, fun hlen cache1 => key cache1 hlen⟩
  intro hne
  cases hvec : part.storage.vec_indices with
  | nil => simp [removeRowIdsMaps, hdisk, hmaps, hvec] at hne
  | cons d ds => simp

/-- Witness of C18 on the part `C`, whose table has one vector-index definition. -/
theorem removeRowIdsMaps_first_definition_in_range_witness :
    0 < examplePartC.storage.vec_indices.length ∧
    (removeRowIdsMaps exampleCollaborators [] (some examplePartC)).abort ≠
      some Abort.outOfRange :=
  ⟨by decide,
    (removeRowIdsMaps_first_definition_in_range exampleCollaborators [] examplePartC rfl
      rfl).2 (by decide) []⟩

end VectorIndex

/-! ## The event log -/

namespace DB

/-- What the overload with an explicit log does when the log is bound: it reads the clock
once, hands one element to `add`, and lets an exception of `add` through. -/
theorem addEventLog_bound {Sink : Type} (ext : EventLogCollaborators Sink) (clock : Clock)
    (sink : Sink) (db_name table_name part_name partition_id : String)
    (event_type : EventType) (execution_status : ExecutionStatus) :
    (addEventLog ext clock (some sink) db_name table_name part_name partition_id event_type
        execution_status).added =
      [{ database_name := db_name
         table_name := table_name
         part_name := part_name
         partition_id := partition_id
         event_type := event_type
         event_time := timeInSeconds clock.now.1
         event_time_microseconds := timeInMicroseconds clock.now.1
         error_code := toUInt16 execution_status.code
         exception := execution_status.message }] ∧
    (addEventLog ext clock (some sink) db_name table_name part_name partition_id event_type
        execution_status).thrown =
      (ext.add
        { database_name := db_name
          table_name := table_name
          part_name := part_name
          partition_id := partition_id
          event_type := event_type
          event_time := timeInSeconds clock.now.1
          event_time_microseconds := timeInMicroseconds clock.now.1
          error_code := toUInt16 execution_status.code
          exception := execution_status.message } sink).2 ∧
    (addEventLog ext clock (some sink) db_name table_name part_name partition_id event_type
        execution_status).clock = clock.now.2 ∧
    (addEventLog ext clock (some sink) db_name table_name part_name partition_id event_type
        execution_status).resolved = [] ∧
    (addEventLog ext clock (some sink) db_name table_name part_name partition_id event_type
        execution_status).traces = [] := by
  exact ⟨rfl, rfl, rfl, rfl, rfl⟩

/-- The handler changes neither the elements added, nor the look-ups, nor the clock, and
lets no exception through. -/
theorem catchAll_fields {Sink : Type} (ext : EventLogCollaborators Sink)
    (log_entry : Option Sink) (function : String) (run : EventLogRun Sink) :
    (catchAll ext log_entry function run).added = run.added ∧
    (catchAll ext log_entry function run).resolved = run.resolved ∧
    (catchAll ext log_entry function run).clock = run.clock ∧
    (catchAll ext log_entry function run).thrown = none := by
  unfold catchAll
  cases h : run.thrown <;> simp [h]

/-- The timestamps of the seconds and of the microseconds of one instant agree. -/
theorem timeInMicroseconds_div (timepoint : TimePoint) :
    timeInMicroseconds timepoint / 1000000 = timeInSeconds timepoint := by
  simp only [timeInMicroseconds, timeInSeconds, Nat.div_div_eq_div_mul]

/-- Every element the overload with an explicit log adds is built from its arguments and
from the first reading of the clock. -/
theorem addEventLog_added {Sink : Type} (ext : EventLogCollaborators Sink) (clock : Clock)
    (log_entry : Option Sink) (db_name table_name part_name partition_id : String)
    (event_type : EventType) (execution_status : ExecutionStatus) :
    ∀ elem ∈ (addEventLog ext clock log_entry db_name table_name part_name partition_id
        event_type execution_status).added,
      elem =
        { database_name := db_name
          table_name := table_name
          part_name := part_name
          partition_id := partition_id
          event_type := event_type
          event_time := timeInSeconds clock.now.1
          event_time_microseconds := timeInMicroseconds clock.now.1
          error_code := toUInt16 execution_status.code
          exception := execution_status.message } := by
  intro elem helem
  cases log_entry with
  | none => simp [addEventLog] at helem
  | some sink =>
    rw [(addEventLog_bound ext clock sink db_name table_name part_name partition_id event_type
      execution_status).1] at helem
    simpa using helem

/-- The clock is read once for each element added. -/
theorem addEventLog_clock {Sink : Type} (ext : EventLogCollaborators Sink) (clock : Clock)
    (log_entry : Option Sink) (db_name table_name part_name partition_id : String)
    (event_type : EventType) (execution_status : ExecutionStatus) :
    (addEventLog ext clock log_entry db_name table_name part_name partition_id event_type
        execution_status).clock.reads =
      clock.reads +
        (addEventLog ext clock log_entry db_name table_name part_name partition_id event_type
          execution_status).added.length := by
  cases log_entry with
  | none => simp [addEventLog]
  | some sink => simp [addEventLog, Clock.now]

/-- Every element an overload with a context adds is one the overload with an explicit log
adds for some names of the database and the table, from the same clock. -/
theorem context_overloads_added {Sink : Type} (ext : EventLogCollaborators Sink)
    (clock : Clock) (current_context : Context Sink)
    (db_name table_name table_uuid part_name partition_id : String)
    (data_part : EventLogDataPart) (event_type : EventType)
    (execution_status : ExecutionStatus) :
    (∀ elem ∈ (addEventLogByContext ext clock current_context db_name table_name part_name
        partition_id event_type execution_status).added,
      elem ∈ (addEventLog ext clock current_context.vector_index_event_log db_name table_name
        part_name partition_id event_type execution_status).added) ∧
    (∀ elem ∈ (addEventLogByDataPart ext clock current_context data_part event_type
        execution_status).added,
      elem ∈ (addEventLog ext clock current_context.vector_index_event_log
        data_part.storage_id.database_name data_part.storage_id.table_name data_part.name
        data_part.partition_id event_type execution_status).added) ∧
    (∀ elem ∈ (addEventLogByTableUUID ext clock current_context table_uuid part_name
        partition_id event_type execution_status).added,
      ∃ db tbl : String,
        elem ∈ (addEventLog ext clock current_context.vector_index_event_log db tbl part_name
          partition_id event_type execution_status).added) := by
  refine ⟨?_, ?_, ?_⟩
  · intro elem helem
    simp only [addEventLogByContext, (catchAll_fields ext _ _ _).1] at helem
    cases hs : current_context.vector_index_event_log with
    | none => simp [hs] at helem
    | some sink => simpa [hs] using helem
  · intro elem helem
    simp only [addEventLogByDataPart, (catchAll_fields ext _ _ _).1] at helem
    cases hs : current_context.vector_index_event_log with
    | none => simp [hs] at helem
    | some sink => simpa [hs] using helem
  · intro elem helem
    simp only [addEventLogByTableUUID, (catchAll_fields ext _ _ _).1] at helem
    cases hs : current_context.vector_index_event_log with
    | none => simp [hs] at helem
    | some sink =>
      simp only [hs] at helem
      cases hp : ext.parseUUID table_uuid with
      | error e => simp [hp] at helem
      | ok tb_uuid =>
        simp only [hp] at helem
        cases hr : getDbAndTableNameFromUUID ext tb_uuid with
        | none => simp [hr] at helem
        | some ret =>
          simp only [hr] at helem
          exact ⟨ret.1, ret.2, helem⟩

/-- Claim C11: every record an `addEventLog` entry point hands to the log has its
`event_time` and its `event_time_microseconds` derived from the same reading of the clock, the
first one of the call, and `event_time_microseconds` divided by 1,000,000 equals `event_time`;
the entry point with an explicit log reads the clock once for the record it adds. -/
theorem event_log_times_from_one_reading {Sink : Type} (ext : EventLogCollaborators Sink)
    (clock : Clock) (log_entry : Option Sink) (current_context : Context Sink)
    (db_name table_name table_uuid part_name partition_id : String)
    (data_part : EventLogDataPart) (event_type : EventType)
    (execution_status : ExecutionStatus) :
    (∀ elem ∈ (addEventLog ext clock log_entry db_name table_name part_name partition_id
        event_type execution_status).added,
      elem.event_time = timeInSeconds clock.now.1 ∧
      elem.event_time_microseconds = timeInMicroseconds clock.now.1 ∧
      elem.event_time_microseconds / 1000000 = elem.event_time) ∧
    (addEventLog ext clock log_entry db_name table_name part_name partition_id event_type
        execution_status).clock.reads =
      clock.reads +
        (addEventLog ext clock log_entry db_name table_name part_name partition_id event_type
          execution_status).added.length ∧
    (∀ elem ∈ (addEventLogByContext ext clock current_context db_name table_name part_name
        partition_id event_type execution_status).added,
      elem.event_time = timeInSeconds clock.now.1 ∧
      elem.event_time_microseconds = timeInMicroseconds clock.now.1 ∧
      elem.event_time_microseconds / 1000000 = elem.event_time) ∧
    (∀ elem ∈ (addEventLogByDataPart ext clock current_context data_part event_type
        execution_status).added,
      elem.event_time = timeInSeconds clock.now.1 ∧
      elem.event_time_microseconds = timeInMicroseconds clock.now.1 ∧
      elem.event_time_microseconds / 1000000 = elem.event_time) ∧
    (∀ elem ∈ (addEventLogByTableUUID ext clock current_context table_uuid part_name
        partition_id event_type execution_status).added,
      elem.event_time = timeInSeconds clock.now.1 ∧
      elem.event_time_microseconds = timeInMicroseconds clock.now.1 ∧
      elem.event_time_microseconds / 1000000 = elem.event_time) := by
  have hbase : ∀ (log : Option Sink) (db tbl : String),
      ∀ elem ∈ (addEventLog ext clock log db tbl part_name partition_id event_type
          execution_status).added,
        elem.event_time = timeInSeconds clock.now.1 ∧
        elem.event_time_microseconds = timeInMicroseconds clock.now.1 ∧
        elem.event_time_microseconds / 1000000 = elem.event_time := by
    intro log db tbl elem helem
    rw [addEventLog_added ext clock log db tbl part_name partition_id event_type
      execution_status elem helem]
    exact ⟨rfl, rfl, timeInMicroseconds_div _⟩
  have hbase2 : ∀ elem ∈ (addEventLog ext clock current_context.vector_index_event_log
        data_part.storage_id.database_name data_part.storage_id.table_name data_part.name
        data_part.partition_id event_type execution_status).added,
        elem.event_time = timeInSeconds clock.now.1 ∧
        elem.event_time_microseconds = timeInMicroseconds clock.now.1 ∧
        elem.event_time_microseconds / 1000000 = elem.event_time := by
    intro elem helem
    rw [addEventLog_added ext clock _ _ _ _ _ event_type execution_status elem helem]
    exact ⟨rfl, rfl, timeInMicroseconds_div _⟩
  have hctx := context_overloads_added ext clock current_context db_name table_name table_uuid
    part_name partition_id data_part event_type execution_status
  refine ⟨hbase log_entry db_name table_name, addEventLog_clock ext clock log_entry db_name
    table_name part_name partition_id event_type execution_status, ?_, ?_, ?_⟩
  · intro elem helem
    exact hbase _ _ _ elem (hctx.1 elem helem)
  · intro elem helem
    exact hbase2 elem (hctx.2.1 elem helem)
  · intro elem helem
    obtain ⟨db, tbl, h⟩ := hctx.2.2 elem helem
    exact hbase _ db tbl elem h

/-- Witness of C11: the record the example log gets at 1 700 000 000.123 456 789 s. -/
theorem event_log_times_from_one_reading_witness :
    (addEventLog exampleEventLog exampleClock (some []) "db" "tbl" "all_1_2_1" "all"
        EventType.BUILD_START { code := 0, message := "" }).added.map
      (fun elem => (elem.event_time, elem.event_time_microseconds)) =
      [(1700000000, 1700000000123456)] ∧
    ({ database_name := "db", table_name := "tbl", part_name := "all_1_2_1"
       partition_id := "all", event_type := EventType.BUILD_START
       event_time := 1700000000, event_time_microseconds := 1700000000123456
       error_code := 0, exception := "" } : VectorIndexEventLogElement).event_time_microseconds /
        1000000 = 1700000000 :=
  ⟨by decide,
    ((event_log_times_from_one_reading exampleEventLog exampleClock (some [])
      { vector_index_event_log := some [] } "db" "tbl" "t-uuid" "all_1_2_1" "all"
      exampleEventLogPart EventType.BUILD_START { code := 0, message := "" }).1
      { database_name := "db", table_name := "tbl", part_name := "all_1_2_1"
        partition_id := "all", event_type := EventType.BUILD_START
        event_time := 1700000000, event_time_microseconds := 1700000000123456
        error_code := 0, exception := "" } (by decide)).2.2⟩

/-- Counterexample to C12: the status code 65541 does not fit the error field; the record
holds 5. -/
theorem event_log_error_code_truncated :
    (addEventLog exampleEventLog exampleClock (some []) "db" "tbl" "all_1_2_1" "all"
        EventType.BUILD_ERROR { code := 65541, message := "boom" }).added.map
      (fun elem => (elem.error_code, elem.exception)) = [(5, "boom")] := by
  decide

/-- Claim C12, amended: with a bound log, `addEventLog` adds one record whose error field is
the status's code modulo 65536 (the cast to `UInt16`), hence the code itself when the code lies
between 0 and 65535; its exception field is the status's message, and its database, table, part
name, partition id and event type are the arguments. -/
theorem event_log_record_keeps_status_modulo {Sink : Type} (ext : EventLogCollaborators Sink)
    (clock : Clock) (sink : Sink) (db_name table_name part_name partition_id : String)
    (event_type : EventType) (execution_status : ExecutionStatus) :
    (addEventLog ext clock (some sink) db_name table_name part_name partition_id event_type
        execution_status).added.length = 1 ∧
    ∀ elem ∈ (addEventLog ext clock (some sink) db_name table_name part_name partition_id
        event_type execution_status).added,
      (elem.error_code : Int) = execution_status.code % 65536 ∧
      (0 ≤ execution_status.code → execution_status.code < 65536 →
        (elem.error_code : Int) = execution_status.code) ∧
      elem.exception = execution_status.message ∧
      elem.database_name = db_name ∧ elem.table_name = table_name ∧
      elem.part_name = part_name ∧ elem.partition_id = partition_id ∧
      elem.event_type = event_type := by
  refine ⟨by simp [addEventLog], ?_⟩
  intro elem helem
  rw [addEventLog_added ext clock _ db_name table_name part_name partition_id event_type
    execution_status elem helem]
  have hmod : ((toUInt16 execution_status.code : Nat) : Int) = execution_status.code % 65536 := by
    unfold toUInt16
    exact Int.toNat_of_nonneg (Int.emod_nonneg _ (by decide))
  refine ⟨hmod, ?_, rfl, rfl, rfl, rfl, rfl, rfl⟩
  intro h0 h1
  simp only
  rw [hmod]
  exact Int.emod_eq_of_lt h0 h1

/-- Witness of the amended C12: the code 241 and its message are kept. -/
theorem event_log_record_keeps_status_modulo_witness :
    (addEventLog exampleEventLog exampleClock (some []) "db" "tbl" "all_1_2_1" "all"
        EventType.BUILD_ERROR { code := 241, message := "boom" }).added.map
      (fun elem => (elem.error_code, elem.exception)) = [(241, "boom")] ∧
    (({ database_name := "db", table_name := "tbl", part_name := "all_1_2_1"
        partition_id := "all", event_type := EventType.BUILD_ERROR
        event_time := 1700000000, event_time_microseconds := 1700000000123456
        error_code := 241, exception := "boom" } : VectorIndexEventLogElement).error_code :
      Int) = 241 :=
  ⟨by decide,
    ((event_log_record_keeps_status_modulo exampleEventLog exampleClock [] "db" "tbl"
      "all_1_2_1" "all" EventType.BUILD_ERROR { code := 241, message := "boom" }).2
      { database_name := "db", table_name := "tbl", part_name := "all_1_2_1"
        partition_id := "all", event_type := EventType.BUILD_ERROR
        event_time := 1700000000, event_time_microseconds := 1700000000123456
        error_code := 241, exception := "boom" } (by decide)).2.1 (by decide) (by decide)⟩

/-- Claim C13: with no log bound, each of the four `addEventLog` entry points adds no record,
makes no look-up, traces nothing, does not read the clock and raises nothing; with a log
bound, the entry point with an explicit log hands exactly one record to the log. -/
theorem event_log_unbound_is_silent {Sink : Type} (ext : EventLogCollaborators Sink)
    (clock : Clock) (sink : Sink) (db_name table_name table_uuid part_name partition_id : String)
    (data_part : EventLogDataPart) (event_type : EventType)
    (execution_status : ExecutionStatus) :
    addEventLog ext clock none db_name table_name part_name partition_id event_type
        execution_status =
      { sink := none, added := [], resolved := [], traces := [], clock := clock
        thrown := none } ∧
    addEventLogByContext ext clock { vector_index_event_log := none } db_name table_name
        part_name partition_id event_type execution_status =
      { sink := none, added := [], resolved := [], traces := [], clock := clock
        thrown := none } ∧
    addEventLogByDataPart ext clock { vector_index_event_log := none } data_part event_type
        execution_status =
      { sink := none, added := [], resolved := [], traces := [], clock := clock
        thrown := none } ∧
    addEventLogByTableUUID ext clock { vector_index_event_log := none } table_uuid part_name
        partition_id event_type execution_status =
      { sink := none, added := [], resolved := [], traces := [], clock := clock
        thrown := none } ∧
    (addEventLog ext clock (some sink) db_name table_name part_name partition_id event_type
        execution_status).added.length = 1 := by
  refine ⟨rfl, rfl, rfl, rfl, ?_⟩
  simp [addEventLog]

/-- Counterexample to C14: the entry point with an explicit log, on a log whose `add`
raises: the exception reaches the caller and nothing is traced. -/
theorem event_log_explicit_sink_failure_escapes :
    (addEventLog exampleFailingEventLog exampleClock (some []) "db" "tbl" "all_1_2_1" "all"
        EventType.BUILD_ERROR { code := 241, message := "boom" }).thrown =
      some (Thrown.other "std::bad_alloc") ∧
    (addEventLog exampleFailingEventLog exampleClock (some []) "db" "tbl" "all_1_2_1" "all"
        EventType.BUILD_ERROR { code := 241, message := "boom" }).traces = [] :=
  ⟨rfl, rfl⟩

/-- Claim C14, amended: the three entry points that take a context let no exception reach the
caller; when adding the record fails, each of them traces the failure to the logger of the log.
The entry point with an explicit log has no handler: a failure of `add` reaches its caller and
nothing is traced. -/
theorem event_log_failure_caught_by_context_overloads {Sink : Type}
    (ext : EventLogCollaborators Sink) (clock : Clock) (current_context : Context Sink)
    (db_name table_name table_uuid part_name partition_id : String)
    (data_part : EventLogDataPart) (event_type : EventType)
    (execution_status : ExecutionStatus) :
    (addEventLogByContext ext clock current_context db_name table_name part_name partition_id
        event_type execution_status).thrown = none ∧
    (addEventLogByDataPart ext clock current_context data_part event_type
        execution_status).thrown = none ∧
    (addEventLogByTableUUID ext clock current_context table_uuid part_name partition_id
        event_type execution_status).thrown = none ∧
    (∀ (sink : Sink) (e : Thrown), current_context.vector_index_event_log = some sink →
      (∀ elem : VectorIndexEventLogElement, (ext.add elem sink).2 = some e) →
      (addEventLogByContext ext clock current_context db_name table_name part_name
          partition_id event_type execution_status).traces =
        [{ logger := ext.logger sink
           function := "addEventLog(ContextPtr, db_name, table_name, ...)"
           exception := e }] ∧
      (addEventLogByDataPart ext clock current_context data_part event_type
          execution_status).traces =
        [{ logger := ext.logger sink
           function := "addEventLog(ContextPtr, data_part, ...)"
           exception := e }] ∧
      (∀ (tb_uuid : UUID) (ret : String × String),
        ext.parseUUID table_uuid = Except.ok tb_uuid →
        getDbAndTableNameFromUUID ext tb_uuid = some ret →
        (addEventLogByTableUUID ext clock current_context table_uuid part_name partition_id
            event_type execution_status).traces =
          [{ logger := ext.logger sink
             function := "addEventLog(ContextPtr, table_uuid, ...)"
             exception := e }]) ∧
      (addEventLog ext clock (some sink) db_name table_name part_name partition_id event_type
          execution_status).thrown = some e ∧
      (addEventLog ext clock (some sink) db_name table_name part_name partition_id event_type
          execution_status).traces = []) := by
  refine ⟨(catchAll_fields ext _ _ _).2.2.2, (catchAll_fields ext _ _ _).2.2.2,
    (catchAll_fields ext _ _ _).2.2.2, ?_⟩
  intro sink e hs hfail
  have hb := fun db tbl part partition =>
    addEventLog_bound ext clock sink db tbl part partition event_type execution_status
  refine ⟨?_, ?_, ?_, ?_, (hb _ _ _ _).2.2.2.2⟩
  · have h := hb db_name table_name part_name partition_id
    simp only [addEventLogByContext, hs, catchAll, h.2.1, hfail, h.2.2.2.2, List.nil_append]
  · have h := hb data_part.storage_id.database_name data_part.storage_id.table_name
      data_part.name data_part.partition_id
    simp only [addEventLogByDataPart, hs, catchAll, h.2.1, hfail, h.2.2.2.2, List.nil_append]
  · intro tb_uuid ret hparse hret
    have h := hb ret.1 ret.2 part_name partition_id
    simp only [addEventLogByTableUUID, hs, hparse, hret, catchAll, h.2.1, hfail, h.2.2.2.2,
      List.nil_append]
  · rw [(hb db_name table_name part_name partition_id).2.1]
    exact hfail _

/-- Witness of the amended C14 on a log whose `add` raises: the entry point with a context
traces the failure. -/
theorem event_log_failure_caught_by_context_overloads_witness :
    (addEventLogByContext exampleFailingEventLog exampleClock
        { vector_index_event_log := some [] } "db" "tbl" "all_1_2_1" "all"
        EventType.BUILD_ERROR { code := 241, message := "boom" }).traces =
      [{ logger := "VectorIndexEventLog (system.vector_index_event_log)"
         function := "addEventLog(ContextPtr, db_name, table_name, ...)"
         exception := Thrown.other "std::bad_alloc" }] :=
  ((event_log_failure_caught_by_context_overloads exampleFailingEventLog exampleClock
    { vector_index_event_log := some [] } "db" "tbl" "t-uuid" "all_1_2_1" "all"
    exampleEventLogPart EventType.BUILD_ERROR { code := 241, message := "boom" }).2.2.2 []
    (Thrown.other "std::bad_alloc") rfl (fun _ => rfl)).1

end DB

/-! ## The schema of the event log -/

namespace DB

/-- Claim C15: `getNamesAndTypes` lists the ten columns database, table, part_name,
partition_id, event_type, event_date, event_time, event_time_microseconds, error, exception, in
this order; and on a block with these columns `appendToBlock` puts ten values, the i-th
into the i-th column, after the values the column holds: the database name, the table name,
the part name, the partition id, the event type, the day number of the event time, the event
time, the event time in microseconds, the error code and the exception text. -/
theorem event_log_columns_and_row (toDayNum : Nat → Nat) (elem : VectorIndexEventLogElement)
    (columns : List (List Field)) (hcolumns : columns.length = getNamesAndTypes.length) :
    getNamesAndTypes.map (fun column => column.1) =
      ["database", "table", "part_name", "partition_id", "event_type", "event_date",
        "event_time", "event_time_microseconds", "error", "exception"] ∧
    appendToBlock toDayNum elem columns =
      some (List.zipWith (fun column value => column ++ [value]) columns
        [Field.text elem.database_name, Field.text elem.table_name, Field.text elem.part_name,
          Field.text elem.partition_id, Field.event elem.event_type,
          Field.number (toDayNum elem.event_time), Field.number elem.event_time,
          Field.number elem.event_time_microseconds, Field.number elem.error_code,
          Field.text elem.exception]) := by
  refine ⟨rfl, ?_⟩
  have hlen : columns.length = 10 := hcolumns
  match columns, hlen with
  | [c0, c1, c2, c3, c4, c5, c6, c7, c8, c9], _ => rfl

/-- Witness of C15 on an empty block of ten columns. -/
theorem event_log_columns_and_row_witness :
    appendToBlock (fun t => t / 86400)
        { database_name := "db", table_name := "tbl", part_name := "all_1_2_1"
          partition_id := "all", event_type := EventType.BUILD_ERROR
          event_time := 1700000000, event_time_microseconds := 1700000000123456
          error_code := 241, exception := "boom" }
        (List.replicate 10 []) =
      some [[Field.text "db"], [Field.text "tbl"], [Field.text "all_1_2_1"],
        [Field.text "all"], [Field.event EventType.BUILD_ERROR], [Field.number 19675],
        [Field.number 1700000000], [Field.number 1700000000123456], [Field.number 241],
        [Field.text "boom"]] :=
  (event_log_columns_and_row (fun t => t / 86400)
    { database_name := "db", table_name := "tbl", part_name := "all_1_2_1"
      partition_id := "all", event_type := EventType.BUILD_ERROR
      event_time := 1700000000, event_time_microseconds := 1700000000123456
      error_code := 241, exception := "boom" }
    (List.replicate 10 []) rfl).2

/-- Claim C16, as the code has it: the enum type of the `event_type` column has 15 values,
and their names are those of the data model except two, `DefinitionDroped` (for
`DEFINITION_DROPPED`) and `BuildCanceld` (for `BUILD_CANCELD`): neither `DefinitionDropped` nor
`BuildCanceled` is a name of the enum. -/
theorem event_type_enum_names :
    eventTypeValues.length = 15 ∧
    eventTypeValues.map (fun value => value.1) =
      ["DefinitionCreated", "DefinitionDroped", "DefinitionError", "BuildStart",
        "BuildSucceed", "BuildError", "BuildCanceld", "LoadStart", "LoadSucceed",
        "LoadCanceled", "LoadFailed", "LoadError", "Unload", "WillUnload", "Cleared"] ∧
    getNamesAndTypes.lookup "event_type" = some (DataType.Enum8 eventTypeValues) ∧
    "DefinitionDropped" ∉ eventTypeValues.map (fun value => value.1) ∧
    "BuildCanceled" ∉ eventTypeValues.map (fun value => value.1) := by
  refine ⟨rfl, rfl, rfl, by decide, by decide⟩

end DB

/-! ## The choice of a normal projection -/

namespace DB.QueryPlanOptimizations

/-- One step of the loop on a projection that is not eligible: the best candidate stays. -/
theorem selectBestCandidate_skip (analyze : ProjectionDescription → CandidateAnalysis)
    (required_columns : List String) (marks : Nat) (projection : ProjectionDescription)
    (rest : List ProjectionDescription) (best : Option NormalProjectionCandidate)
    (h : eligible analyze required_columns marks projection = false) :
    selectBestCandidate analyze required_columns marks (projection :: rest) best =
      selectBestCandidate analyze required_columns marks rest best := by
  simp only [eligible, Bool.and_eq_false_iff, decide_eq_false_iff_not, not_lt] at h
  rcases h with (h | h) | h
  · simp [selectBestCandidate, h]
  · by_cases hc : hasAllRequiredColumns projection required_columns = true
    · simp [selectBestCandidate, hc, h]
    · simp [selectBestCandidate, hc]
  · by_cases hc : hasAllRequiredColumns projection required_columns = true
    · by_cases ha : (analyze projection).analyzed = true
      · simp [selectBestCandidate, hc, ha, h]
      · simp [selectBestCandidate, hc, ha]
    · simp [selectBestCandidate, hc]

/-- One step of the loop on an eligible projection: its candidate becomes the best one when
there is none yet or when it has strictly fewer marks than the best so far. -/
theorem selectBestCandidate_take (analyze : ProjectionDescription → CandidateAnalysis)
    (required_columns : List String) (marks : Nat) (projection : ProjectionDescription)
    (rest : List ProjectionDescription) (best : Option NormalProjectionCandidate)
    (h : eligible analyze required_columns marks projection = true) :
    selectBestCandidate analyze required_columns marks (projection :: rest) best =
      selectBestCandidate analyze required_columns marks rest
        (match best with
        | none => some (candidateOf analyze projection)
        | some b =>
          if (candidateOf analyze projection).sum_marks < b.sum_marks then
            some (candidateOf analyze projection)
          else some b) := by
  simp only [eligible, Bool.and_eq_true, decide_eq_true_eq] at h
  obtain ⟨⟨hc, ha⟩, hm⟩ := h
  cases best with
  | none => simp [selectBestCandidate, hc, ha, hm, candidateOf]
  | some b =>
    by_cases hlt : (analyze projection).sum_marks < b.sum_marks
    · simp [selectBestCandidate, hc, ha, hm, candidateOf, hlt]
    · simp [selectBestCandidate, hc, ha, hm, candidateOf, hlt]

/-- The best of a list stays the best when a projection it beats is put in front. -/
theorem isBestOf_cons (analyze : ProjectionDescription → CandidateAnalysis)
    (required_columns : List String) (marks : Nat) (c : NormalProjectionCandidate)
    (p : ProjectionDescription) (rest : List ProjectionDescription)
    (h : IsBestOf analyze required_columns marks c rest)
    (hp : eligible analyze required_columns marks p = true →
      c.sum_marks < (analyze p).sum_marks) :
    IsBestOf analyze required_columns marks c (p :: rest) := by
  obtain ⟨before, q, after, hrest, hq, hc, hb, ha⟩ := h
  refine ⟨p :: before, q, after, by simp [hrest], hq, hc, ?_, ha⟩
  intro r hr hel
  rcases List.mem_cons.mp hr with rfl | hr
  · exact hp hel
  · exact hb r hr hel

/-- The loop invariant: from no best candidate the loop ends with none exactly when no
projection is eligible, and otherwise with the best of the list; from a best candidate `b` it
ends with `b` when no eligible projection has strictly fewer marks, and otherwise with the
best of the list, which has strictly fewer marks than `b`. -/
theorem selectBestCandidate_spec (analyze : ProjectionDescription → CandidateAnalysis)
    (required_columns : List String) (marks : Nat) :
    ∀ (projections : List ProjectionDescription),
      ((selectBestCandidate analyze required_columns marks projections none = none ∧
          ∀ q ∈ projections, eligible analyze required_columns marks q = false) ∨
        ∃ c, selectBestCandidate analyze required_columns marks projections none = some c ∧
          IsBestOf analyze required_columns marks c projections) ∧
      ∀ b : NormalProjectionCandidate,
        (selectBestCandidate analyze required_columns marks projections (some b) = some b ∧
          ∀ q ∈ projections, eligible analyze required_columns marks q = true →
            b.sum_marks ≤ (analyze q).sum_marks) ∨
        ∃ c, selectBestCandidate analyze required_columns marks projections (some b) = some c ∧
          IsBestOf analyze required_columns marks c projections ∧ c.sum_marks < b.sum_marks := by
  intro projections
  induction projections with
  | nil =>
    refine ⟨Or.inl ⟨rfl, by simp⟩, fun b => Or.inl ⟨rfl, by simp⟩⟩
  | cons p rest ih =>
    obtain ⟨ihnone, ihsome⟩ := ih
    cases hel : eligible analyze required_columns marks p with
    | false =>
      have hskip := fun best => selectBestCandidate_skip analyze required_columns marks p rest
        best hel
      refine ⟨?_, ?_⟩
      · rw [hskip]
        rcases ihnone with ⟨h1, h2⟩ | ⟨c, h1, h2⟩
        · left
          refine ⟨h1, ?_⟩
          intro q hq
          rcases List.mem_cons.mp hq with rfl | hq
          · exact hel
          · exact h2 q hq
        · right
          exact ⟨c, h1, isBestOf_cons analyze required_columns marks c p rest h2
            (fun h => by rw [hel] at h; cases h)⟩
      · intro b
        rw [hskip]
        rcases ihsome b with ⟨h1, h2⟩ | ⟨c, h1, h2, h3⟩
        · left
          refine ⟨h1, ?_⟩
          intro q hq hqe
          rcases List.mem_cons.mp hq with rfl | hq
          · rw [hel] at hqe; cases hqe
          · exact h2 q hq hqe
        · right
          exact ⟨c, h1, isBestOf_cons analyze required_columns marks c p rest h2
            (fun h => by rw [hel] at h; cases h), h3⟩
    | true =>
      have htake := fun best => selectBestCandidate_take analyze required_columns marks p rest
        best hel
      have hcand : (candidateOf analyze p).sum_marks = (analyze p).sum_marks := rfl
      have hown : ∀ (h2 : ∀ q ∈ rest, eligible analyze required_columns marks q = true →
          (candidateOf analyze p).sum_marks ≤ (analyze q).sum_marks),
          IsBestOf analyze required_columns marks (candidateOf analyze p) (p :: rest) :=
        fun h2 => ⟨[], p, rest, rfl, hel, rfl, by simp, h2⟩
      refine ⟨?_, ?_⟩
      · right
        rw [htake]
        rcases ihsome (candidateOf analyze p) with ⟨h1, h2⟩ | ⟨c, h1, h2, h3⟩
        · exact ⟨_, h1, hown h2⟩
        · exact ⟨c, h1, isBestOf_cons analyze required_columns marks c p rest h2
            (fun _ => by rw [← hcand]; exact h3)⟩
      · intro b
        rw [htake]
        by_cases hlt : (candidateOf analyze p).sum_marks < b.sum_marks
        · right
          simp only [hlt, if_true]
          rcases ihsome (candidateOf analyze p) with ⟨h1, h2⟩ | ⟨c, h1, h2, h3⟩
          · exact ⟨_, h1, hown h2, hlt⟩
          · exact ⟨c, h1, isBestOf_cons analyze required_columns marks c p rest h2
              (fun _ => by rw [← hcand]; exact h3), lt_trans h3 hlt⟩
        · simp only [hlt, if_false]
          rcases ihsome b with ⟨h1, h2⟩ | ⟨c, h1, h2, h3⟩
          · left
            refine ⟨h1, ?_⟩
            intro q hq hqe
            rcases List.mem_cons.mp hq with rfl | hq
            · rw [← hcand]; exact not_lt.mp hlt
            · exact h2 q hq hqe
          · right
            refine ⟨c, h1, isBestOf_cons analyze required_columns marks c p rest h2 ?_, h3⟩
            intro _
            rw [← hcand]
            exact lt_of_lt_of_le h3 (not_lt.mp hlt)

/-- Claim C19: when `optimizeUseNormalProjections` reaches its loop over the normal
projections (the step is a `ReadFromMergeTree` for which a projection may be used and the query
builds), the best candidate chosen is the candidate of an eligible projection of the list, every
eligible projection before it has strictly more marks and every eligible projection after it
at least as many (the earliest wins a tie); no candidate is chosen if and only if no projection
is eligible, which is when the function returns false, and then, the list not being empty,
the result of ordinary reading is set. -/
theorem optimizeUseNormalProjections_chooses_best
    (analyze : ProjectionDescription → CandidateAnalysis) (reading : ReadFromMergeTree)
    (normal_projections : List ProjectionDescription)
    (hcan : reading.canUseProjectionForReadingStep = true)
    (hnormal : reading.projections.filter
      (fun projection => projection.type = ProjectionType.Normal) = normal_projections) :
    (∀ c : NormalProjectionCandidate,
      (optimizeUseNormalProjections analyze true (some reading)).best_candidate = some c →
      ∃ (before : List ProjectionDescription) (p : ProjectionDescription)
        (after : List ProjectionDescription),
        normal_projections = before ++ p :: after ∧
        eligible analyze reading.required_columns reading.ordinary_reading_marks p = true ∧
        c.projection = p ∧ c.sum_marks = (analyze p).sum_marks ∧
        (∀ q ∈ before,
          eligible analyze reading.required_columns reading.ordinary_reading_marks q = true →
          c.sum_marks < (analyze q).sum_marks) ∧
        (∀ q ∈ after,
          eligible analyze reading.required_columns reading.ordinary_reading_marks q = true →
          c.sum_marks ≤ (analyze q).sum_marks)) ∧
    ((optimizeUseNormalProjections analyze true (some reading)).best_candidate = none ↔
      ∀ q ∈ normal_projections,
        eligible analyze reading.required_columns reading.ordinary_reading_marks q = false) ∧
    ((optimizeUseNormalProjections analyze true (some reading)).result = false ↔
      (optimizeUseNormalProjections analyze true (some reading)).best_candidate = none) ∧
    ((optimizeUseNormalProjections analyze true (some reading)).best_candidate = none →
      normal_projections ≠ [] →
      (optimizeUseNormalProjections analyze true (some reading)).analyzed_result =
        some AnalyzedResult.ordinary_reading) := by
  subst hnormal
  have hspec := (selectBestCandidate_spec analyze reading.required_columns
    reading.ordinary_reading_marks
    (reading.projections.filter (fun projection => projection.type = ProjectionType.Normal))).1
  cases hempty : (reading.projections.filter
      (fun projection => projection.type = ProjectionType.Normal)) with
  | nil =>
    have hout : optimizeUseNormalProjections analyze true (some reading) =
        { result := false, best_candidate := none, analyzed_result := none } := by
      simp [optimizeUseNormalProjections, hcan, hempty]
    rw [hout]
    simp
  | cons p0 rest =>
    rw [hempty] at hspec
    rcases hspec with ⟨h1, h2⟩ | ⟨c, h1, h2⟩
    · have hout : optimizeUseNormalProjections analyze true (some reading) =
          { result := false, best_candidate := none
            analyzed_result := some AnalyzedResult.ordinary_reading } := by
        simp [optimizeUseNormalProjections, hcan, hempty, h1]
      rw [hout]
      simpa using h2
    · have hout : optimizeUseNormalProjections analyze true (some reading) =
          { result := true, best_candidate := some c
            analyzed_result :=
              if c.has_ordinary_parts then some (AnalyzedResult.ordinary_parts_of c)
              else none } := by
        simp [optimizeUseNormalProjections, hcan, hempty, h1]
      rw [hout]
      obtain ⟨before, p, after, hsplit, hel, hc, hb, ha⟩ := h2
      refine ⟨?_, ?_, by simp, by simp⟩
      · intro c' hc'
        simp only [Option.some.injEq] at hc'
        subst hc'
        exact ⟨before, p, after, hsplit, hel, by rw [hc]; rfl, by rw [hc]; rfl, hb, ha⟩
      · simp only [false_iff, not_forall, reduceCtorEq]
        refine ⟨p, ?_, by simp [hel]⟩
        rw [hsplit]
        simp

/-- Witness of C19 on the example projections: `p1` lacks a column, `p4` is no better than
ordinary reading, `p2` and `p3` tie on 40 marks, and `p2`, the earlier one, is chosen. -/
theorem optimizeUseNormalProjections_chooses_best_witness :
    exampleReading.canUseProjectionForReadingStep = true ∧
    ((optimizeUseNormalProjections exampleAnalysis true (some exampleReading)).result = false ↔
      (optimizeUseNormalProjections exampleAnalysis true
        (some exampleReading)).best_candidate = none) ∧
    (optimizeUseNormalProjections exampleAnalysis true (some exampleReading)).best_candidate =
      some { projection := { name := "p2", type := ProjectionType.Normal
                             sample_block := ["a", "b"] }
             sum_marks := 40, has_ordinary_parts := false } :=
  ⟨rfl, (optimizeUseNormalProjections_chooses_best exampleAnalysis exampleReading
    (exampleReading.projections.filter
      (fun projection => projection.type = ProjectionType.Normal)) rfl rfl).2.2.1, by decide⟩

end DB.QueryPlanOptimizations
